import Mathlib

set_option maxRecDepth 8000

/-!
Verification of the glTF/GLB optimizer core (`src/opt.rs`).

The development shallowly embeds the reconstruction engine of `opt.rs`:
byte blobs are `List Nat` (byte values), documents are a `Root` structure of
positional entity arrays, and the stateful Rust functions become explicit
state passing over `S` (the pair of the new blob and the new document).

Numeric model for `f32`: every finite IEEE-754 binary32 value multiplied by
2^150 is an integer, so an `f32` value is represented as that exact integer
(`Int`).  Decoding a bit pattern is exact; encoding rounds to nearest, ties
to even, exactly as IEEE addition requires for `x + offset` followed by
`to_le_bytes` (a single correctly-rounded step).  NaN and infinity payloads
are outside the model: exponent-255 patterns are decoded by the same formula
as finite ones.  Division by two (`calculate_center_bottom_offset`) is exact
on decoded values because every decoded scaled value is even.
-/

namespace GltfOpt

/-- Fuel-driven floor of log base 2; `log2fuel n n` computes `Nat.log2 n`
with structural recursion so that the kernel can evaluate it. -/
def log2fuel : Nat → Nat → Nat
  | 0, _ => 0
  | f + 1, n => if n ≥ 2 then log2fuel f (n / 2) + 1 else 0

/-- Floor of log base 2 of a natural number (0 for 0). -/
def nlog2 (n : Nat) : Nat := log2fuel n n

/-- Round `m / u` to the nearest integer, ties to even (`u > 0` at use sites). -/
def roundEvenDiv (m u : Nat) : Nat :=
  let q := m / u
  let r := m % u
  if 2 * r < u then q
  else if 2 * r > u then q + 1
  else if q % 2 = 0 then q else q + 1

/-- Decode an IEEE-754 binary32 bit pattern into its exact value scaled by
2^150.  Subnormals: `frac * 2^(-149)`, i.e. `frac * 2` scaled.  Normals:
`(2^23 + frac) * 2^(exp - 150)`, i.e. `(2^23 + frac) * 2^exp` scaled.
Exponent-255 patterns (infinity/NaN) are decoded by the normal formula and
are outside the model. -/
def decodeF32 (bits : Nat) : Int :=
  let s : Nat := bits / 2 ^ 31 % 2
  let ex : Nat := bits / 2 ^ 23 % 2 ^ 8
  let frac : Nat := bits % 2 ^ 23
  let mag : Int := if ex = 0 then Int.ofNat frac * 2 else Int.ofNat (2 ^ 23 + frac) * 2 ^ ex
  if s = 1 then -mag else mag

/-- Encode a value (scaled by 2^150) into the nearest IEEE-754 binary32 bit
pattern, rounding to nearest, ties to even; overflow yields the infinity
pattern.  Zero encodes as +0.0 (the sign of a zero is outside the model). -/
def encodeF32 (v : Int) : Nat :=
  if v = 0 then 0
  else
    let s : Nat := if v < 0 then 2 ^ 31 else 0
    let m := v.natAbs
    let e : Int := (nlog2 m : Int) - 150
    let e' : Int := if e < -126 then -126 else e
    let u : Nat := 2 ^ (e' + 127).toNat
    let n := roundEvenDiv m u
    let p : Int × Nat := if n = 2 ^ 24 then (e' + 1, 2 ^ 23) else (e', n)
    if p.2 < 2 ^ 23 then s + p.2
    else
      let expField : Int := p.1 + 127
      if expField ≥ 255 then s + 255 * 2 ^ 23
      else s + expField.toNat * 2 ^ 23 + (p.2 - 2 ^ 23)

/-- Model of `f32::from_le_bytes` on four byte values. -/
def f32FromLeBytes (b0 b1 b2 b3 : Nat) : Int :=
  decodeF32 (b0 % 256 + b1 % 256 * 256 + b2 % 256 * 65536 + b3 % 256 * 16777216)

/-- Model of `f32::to_le_bytes`: rounds to binary32 and splits into 4 bytes. -/
def f32ToLeBytes (v : Int) : List Nat :=
  let b := encodeF32 v
  [b % 256, b / 256 % 256, b / 65536 % 256, b / 16777216 % 256]

/-- Integer value `n` as an f32 model value (scaled by 2^150). -/
def f32OfInt (n : Int) : Int := n * 2 ^ 150

/-- Splice `bs` into `d` starting at `start`, replacing `bs.length` bytes
in place (the model of `copy_from_slice` on a subrange). -/
def listWrite (d : List Nat) (start : Nat) (bs : List Nat) : List Nat :=
  d.take start ++ bs ++ d.drop (start + bs.length)

/-- Model of Rust slice indexing `l.get(a..b)`: `some` exactly when the
range is within bounds. -/
def sliceGet (l : List Nat) (a b : Nat) : Option (List Nat) :=
  if a ≤ b ∧ b ≤ l.length then some ((l.drop a).take (b - a)) else none

/-- Fuel-driven replacement of every non-overlapping occurrence of `pat`
(non-empty at all use sites) by `rep`, scanning left to right — the model of
Rust `str::replace`.  Fuel `s.length` suffices since every step consumes at
least one character. -/
def replaceFuel (pat rep : List Char) : Nat → List Char → List Char
  | 0, s => s
  | f + 1, s =>
    match s with
    | [] => []
    | c :: rest =>
      if pat.isPrefixOf (c :: rest) then rep ++ replaceFuel pat rep f ((c :: rest).drop pat.length)
      else c :: replaceFuel pat rep f rest

/-- Model of Rust `str::replace` for non-empty patterns. -/
def strReplace (s pat rep : String) : String :=
  ⟨replaceFuel pat.data rep.data s.data.length s.data⟩

/-- Whether `pat` occurs as a contiguous substring of `s`. -/
def strContainsStr (s pat : String) : Bool :=
  go pat.data s.data
where
  go (p : List Char) : List Char → Bool
    | [] => p.isEmpty
    | c :: rest => p.isPrefixOf (c :: rest) || go p rest

/-! ## Data model (the fields of the gltf json entities that `opt.rs` reads
or writes; fields it merely clones untouched are omitted). -/

/-- Accessor element type (`type` field); `opt.rs` never inspects it, it is
carried for stating layout side conditions. -/
inductive AccType where
  | scalar | vec2 | vec3 | vec4 | mat2 | mat3 | mat4
deriving DecidableEq, Repr, Inhabited

/-- Mesh-primitive attribute semantic: the code only distinguishes
`Semantic::Positions` from everything else. -/
inductive Semantic where
  | positions
  | other (name : String)
deriving DecidableEq, Repr, Inhabited

structure BufferView where
  byte_offset : Option Nat
  byte_length : Nat
  byte_stride : Option Nat
deriving DecidableEq, Repr, Inhabited

/-- Accessor; `min`/`max` are JSON number arrays, modelled as scaled f32
values (numeric entries; the f64-to-f32 narrowing of `as_f64 () as f32` is
the identity on values that originated from f32 data). -/
structure Accessor where
  buffer_view : Option Nat
  byte_offset : Option Nat
  count : Nat
  component_type : Nat
  type_ : AccType
  min : Option (List Int)
  max : Option (List Int)
deriving DecidableEq, Repr, Inhabited

structure Image where
  buffer_view : Option Nat
  mime_type : Option String
  name : Option String
  uri : Option String
deriving DecidableEq, Repr, Inhabited

structure Texture where
  source : Nat
deriving DecidableEq, Repr, Inhabited

structure TextureInfo where
  index : Nat
deriving DecidableEq, Repr, Inhabited

structure NormalTexture where
  index : Nat
deriving DecidableEq, Repr, Inhabited

structure PbrMetallicRoughness where
  base_color_texture : Option TextureInfo
  metallic_roughness_texture : Option TextureInfo
deriving DecidableEq, Repr, Inhabited

structure Material where
  pbr_metallic_roughness : PbrMetallicRoughness
  normal_texture : Option NormalTexture
deriving DecidableEq, Repr, Inhabited

structure Primitive where
  indices : Option Nat
  attributes : List (Semantic × Nat)
  material : Option Nat
deriving DecidableEq, Repr, Inhabited

structure Mesh where
  primitives : List Primitive
deriving DecidableEq, Repr, Inhabited

structure Skin where
  inverse_bind_matrices : Option Nat
deriving DecidableEq, Repr, Inhabited

structure Buffer where
  byte_length : Nat
deriving DecidableEq, Repr, Inhabited

/-- The glTF json document restricted to the entity arrays `opt.rs`
rebuilds (pass-through arrays — cameras, nodes, samplers, scenes — carry no
claim and are omitted). -/
structure Root where
  buffer_views : List BufferView
  accessors : List Accessor
  images : List Image
  textures : List Texture
  materials : List Material
  meshes : List Mesh
  skins : List Skin
  buffers : List Buffer
  extensions_used : List String
  extensions_required : List String
deriving DecidableEq, Repr, Inhabited

/-- The state being built: the new blob and the new document
(`n_blob` / `n_json` in the source). -/
structure S where
  blob : List Nat
  json : Root
deriving DecidableEq, Repr, Inhabited

/-! `Root::push` in the gltf crate appends to the entity array for the
pushed type and returns the new entry's index; one helper per entity. -/

def pushView (r : Root) (v : BufferView) : Root × Nat :=
  ({ r with buffer_views := r.buffer_views ++ [v] }, r.buffer_views.length)

def pushAccessor (r : Root) (a : Accessor) : Root × Nat :=
  ({ r with accessors := r.accessors ++ [a] }, r.accessors.length)

def pushImage (r : Root) (i : Image) : Root × Nat :=
  ({ r with images := r.images ++ [i] }, r.images.length)

def pushTexture (r : Root) (t : Texture) : Root × Nat :=
  ({ r with textures := r.textures ++ [t] }, r.textures.length)

def pushMaterial (r : Root) (m : Material) : Root × Nat :=
  ({ r with materials := r.materials ++ [m] }, r.materials.length)

def pushMesh (r : Root) (m : Mesh) : Root × Nat :=
  ({ r with meshes := r.meshes ++ [m] }, r.meshes.length)

def pushSkin (r : Root) (s : Skin) : Root × Nat :=
  ({ r with skins := r.skins ++ [s] }, r.skins.length)

def pushBuffer (r : Root) (b : Buffer) : Root × Nat :=
  ({ r with buffers := r.buffers ++ [b] }, r.buffers.length)

/-! ## Operations of `opt.rs` -/

/-- `update_image_name_for_ktx2`: replace the eight exact extension
spellings by `.ktx2`, appending `.ktx2` when nothing was replaced. -/
def update_image_name_for_ktx2 (image_name : Option String) : Option String :=
  match image_name with
  | some name =>
    let updated_name :=
      strReplace (strReplace (strReplace (strReplace (strReplace (strReplace (strReplace
        (strReplace name ".jpg" ".ktx2") ".jpeg" ".ktx2") ".png" ".ktx2") ".webp" ".ktx2")
        ".JPG" ".ktx2") ".JPEG" ".ktx2") ".PNG" ".ktx2") ".WEBP" ".ktx2"
    if updated_name = name then some (name ++ ".ktx2") else some updated_name
  | none => none

/-- `add_image`: append the encoded bytes to the new blob, push a buffer
view covering exactly those bytes, and push a clone of the source image
pointing at it (with KTX2 name/URI rewriting when the MIME type is
`image/ktx2`). -/
def add_image (st : S) (img : Image) (b : List Nat) (mime_type : String) : S × Nat :=
  let offset := st.blob.length
  let length := b.length
  let n_blob := st.blob ++ b
  let view : BufferView :=
    { byte_offset := if offset = 0 then none else some offset
      byte_length := length
      byte_stride := none }
  let pv := pushView st.json view
  let n_img0 : Image := { img with buffer_view := some pv.2, mime_type := some mime_type }
  let n_img :=
    if mime_type = "image/ktx2" then
      let withName : Image := { n_img0 with
        name := update_image_name_for_ktx2 img.name
        uri := update_image_name_for_ktx2 img.uri }
      if withName.name = none then
        { withName with name := some ("texture_" ++ Nat.repr pv.1.images.length ++ ".ktx2") }
      else withName
    else n_img0
  let pi := pushImage pv.1 n_img
  ({ blob := n_blob, json := pi.1 }, pi.2)

/-- One step of the in-place position loop: when the 12-byte window at
`start` fits, decode three little-endian f32s, add the offset
component-wise, and re-encode in place; otherwise leave the span alone. -/
def transformRecord (d : List Nat) (start : Nat) (off : Int × Int × Int) : List Nat :=
  if start + 12 ≤ d.length then
    let x := f32FromLeBytes (d.getD start 0) (d.getD (start + 1) 0) (d.getD (start + 2) 0) (d.getD (start + 3) 0)
    let y := f32FromLeBytes (d.getD (start + 4) 0) (d.getD (start + 5) 0) (d.getD (start + 6) 0) (d.getD (start + 7) 0)
    let z := f32FromLeBytes (d.getD (start + 8) 0) (d.getD (start + 9) 0) (d.getD (start + 10) 0) (d.getD (start + 11) 0)
    listWrite d start (f32ToLeBytes (x + off.1) ++ f32ToLeBytes (y + off.2.1) ++ f32ToLeBytes (z + off.2.2))
  else d

/-- The source's `for i in 0..count` loop, applying records in ascending
order: `transformRecords d eo s off n` has processed records `0 … n-1`. -/
def transformRecords (d : List Nat) (acc_offset stride : Nat) (off : Int × Int × Int) : Nat → List Nat
  | 0 => d
  | n + 1 => transformRecord (transformRecords d acc_offset stride off n) (acc_offset + n * stride) off

/-- Translate the first three entries of a `min`/`max` array by the offset
when the array has at least three entries (reads happen before writes). -/
def translateMinMax (v : Option (List Int)) (off : Int × Int × Int) : Option (List Int) :=
  match v with
  | none => none
  | some arr =>
    if arr.length ≥ 3 then
      some (((arr.set 0 (arr.getD 0 0 + off.1)).set 1 (arr.getD 1 0 + off.2.1)).set 2 (arr.getD 2 0 + off.2.2))
    else some arr

/-- `add_accessor_with_offset`: relocate one accessor's span into the new
blob, optionally applying the position offset in place, and push the new
buffer view and accessor.  Returns `none` (with the state untouched) when
the accessor or its view is absent or the declared range is unavailable. -/
def add_accessor_with_offset (st : S) (o_blob : List Nat) (o_json : Root) (idx : Nat)
    (position_offset : Option (Int × Int × Int)) : S × Option Nat :=
  match o_json.accessors.get? idx with
  | none => (st, none)
  | some acc =>
    match acc.buffer_view with
    | none => (st, none)
    | some idx_view =>
      match o_json.buffer_views.get? idx_view with
      | none => (st, none)
      | some view =>
        let offset := view.byte_offset.getD 0
        let length := view.byte_length
        match sliceGet o_blob offset (offset + length) with
        | none => (st, none)
        | some data =>
          let n_offset := st.blob.length
          match position_offset with
          | some pos_offset =>
            let acc_offset := acc.byte_offset.getD 0
            let stride := view.byte_stride.getD 12
            let count := acc.count
            let modified_data := transformRecords data acc_offset stride pos_offset count
            let n_blob := st.blob ++ modified_data
            let n_acc : Accessor := { acc with
              min := translateMinMax acc.min pos_offset
              max := translateMinMax acc.max pos_offset }
            let n_view : BufferView := { view with
              byte_offset := some n_offset
              byte_length := modified_data.length }
            let pv := pushView st.json n_view
            let pa := pushAccessor pv.1 { n_acc with buffer_view := some pv.2 }
            ({ blob := n_blob, json := pa.1 }, some pa.2)
          | none =>
            let n_blob := st.blob ++ data
            let n_view : BufferView := { view with
              byte_offset := some n_offset
              byte_length := data.length }
            let pv := pushView st.json n_view
            let pa := pushAccessor pv.1 { acc with buffer_view := some pv.2 }
            ({ blob := n_blob, json := pa.1 }, some pa.2)

/-- `add_accessor` is `add_accessor_with_offset` with no offset. -/
def add_accessor (st : S) (o_blob : List Nat) (o_json : Root) (idx : Nat) : S × Option Nat :=
  add_accessor_with_offset st o_blob o_json idx none

/-- `get_image_data`: locate the embedded byte span of a texture's source
image, `none` when any link is missing or the range exceeds the blob. -/
def get_image_data (o_blob : List Nat) (o_json : Root) (texture_idx : Nat) : Option (List Nat) := do
  let tex ← o_json.textures.get? texture_idx
  let img ← o_json.images.get? tex.source
  let idx_view ← img.buffer_view
  let view ← o_json.buffer_views.get? idx_view
  let offset := view.byte_offset.getD 0
  let length := view.byte_length
  if offset + length > o_blob.length then none
  else sliceGet o_blob offset (offset + length)

/-- Texture role, selecting the compression profile. -/
inductive TextureType where
  | baseColor | normal | metallicRoughness
deriving DecidableEq, Repr, Inhabited

/-- Modelled from the spec: §1 places pixel decoding, resizing and
Basis/KTX2 compression out of scope as opaque codec services, so the bodies
of `resize_to_jpg`, `resize_to_png` and `resize_to_ktx2` (which only wrap
the external `image`, `fast_image_resize` and `ktx2_rw` crates) are
abstracted into a codec parameter returning the encoded bytes or an error. -/
structure Codec where
  resizeToJpg : List Nat → Nat → Nat → Except String (List Nat)
  resizeToPng : List Nat → Nat → Nat → Except String (List Nat)
  resizeToKtx2 : List Nat → Nat → Nat → TextureType → Except String (List Nat)

/-- `add_texture` (base-color path): fetch the image span, encode it at the
requested size, re-embed via `add_image`, clone the texture and the
texture-info record. -/
def add_texture (codec : Codec) (st : S) (o_blob : List Nat) (o_json : Root)
    (info : TextureInfo) (n_tex_size : Nat) (convert_to_ktx2 : Bool) :
    Except String (S × TextureInfo) :=
  match get_image_data o_blob o_json info.index with
  | none => Except.error ("Failed to get base color texture image data (texture index: " ++ Nat.repr info.index ++ ")")
  | some bct_image_data =>
    let mime_type := if convert_to_ktx2 then "image/ktx2" else "image/jpeg"
    let encoded :=
      if convert_to_ktx2 then codec.resizeToKtx2 bct_image_data n_tex_size n_tex_size TextureType.baseColor
      else codec.resizeToJpg bct_image_data n_tex_size n_tex_size
    match encoded with
    | Except.error e => Except.error e
    | Except.ok new_bct_data =>
      match o_json.textures.get? info.index with
      | none => Except.error "Failed to get original texture"
      | some original_texture =>
        match o_json.images.get? original_texture.source with
        | none => Except.error "Failed to get original image"
        | some new_image =>
          let ai := add_image st new_image new_bct_data mime_type
          let pt := pushTexture ai.1.json { original_texture with source := ai.2 }
          Except.ok ({ ai.1 with json := pt.1 }, { info with index := pt.2 })

/-- `add_normal_texture`: the normal-map variant (PNG default path, normal
compression profile, its own error strings). -/
def add_normal_texture (codec : Codec) (st : S) (o_blob : List Nat) (o_json : Root)
    (normal : NormalTexture) (n_tex_size : Nat) (convert_to_ktx2 : Bool) :
    Except String (S × NormalTexture) :=
  match get_image_data o_blob o_json normal.index with
  | none => Except.error ("Failed to get normal texture image data (texture index: " ++ Nat.repr normal.index ++ ")")
  | some bct_image_data =>
    let mime_type := if convert_to_ktx2 then "image/ktx2" else "image/png"
    let encoded :=
      if convert_to_ktx2 then codec.resizeToKtx2 bct_image_data n_tex_size n_tex_size TextureType.normal
      else codec.resizeToPng bct_image_data n_tex_size n_tex_size
    match encoded with
    | Except.error e => Except.error e
    | Except.ok new_bct_data =>
      match o_json.textures.get? normal.index with
      | none => Except.error "Failed to get original normal texture"
      | some original_texture =>
        match o_json.images.get? original_texture.source with
        | none => Except.error "Failed to get original normal texture image"
        | some new_image =>
          let ai := add_image st new_image new_bct_data mime_type
          let pt := pushTexture ai.1.json { original_texture with source := ai.2 }
          Except.ok ({ ai.1 with json := pt.1 }, { normal with index := pt.2 })

/-- `add_metallic_roughness_texture`: the metallic/roughness variant (JPEG
default path, metallic-roughness compression profile, its own error
strings). -/
def add_metallic_roughness_texture (codec : Codec) (st : S) (o_blob : List Nat) (o_json : Root)
    (info : TextureInfo) (n_tex_size : Nat) (convert_to_ktx2 : Bool) :
    Except String (S × TextureInfo) :=
  match get_image_data o_blob o_json info.index with
  | none => Except.error ("Failed to get metallic/roughness texture image data (texture index: " ++ Nat.repr info.index ++ ")")
  | some bct_image_data =>
    let mime_type := if convert_to_ktx2 then "image/ktx2" else "image/jpeg"
    let encoded :=
      if convert_to_ktx2 then codec.resizeToKtx2 bct_image_data n_tex_size n_tex_size TextureType.metallicRoughness
      else codec.resizeToJpg bct_image_data n_tex_size n_tex_size
    match encoded with
    | Except.error e => Except.error e
    | Except.ok new_bct_data =>
      match o_json.textures.get? info.index with
      | none => Except.error "Failed to get original metallic/roughness texture"
      | some original_texture =>
        match o_json.images.get? original_texture.source with
        | none => Except.error "Failed to get original metallic/roughness texture image"
        | some new_image =>
          let ai := add_image st new_image new_bct_data mime_type
          let pt := pushTexture ai.1.json { original_texture with source := ai.2 }
          Except.ok ({ ai.1 with json := pt.1 }, { info with index := pt.2 })

/-- The attribute loop of `add_primitive`: relocate every attribute
accessor in order, applying the pivot offset only to `Positions`, and keep
exactly the attributes whose relocation succeeded. -/
def add_attributes (o_blob : List Nat) (o_json : Root) (pivot_offset : Option (Int × Int × Int)) :
    S → List (Semantic × Nat) → S × List (Semantic × Nat)
  | st, [] => (st, [])
  | st, kv :: rest =>
    let offset_to_apply := if kv.1 = Semantic.positions then pivot_offset else none
    match add_accessor_with_offset st o_blob o_json kv.2 offset_to_apply with
    | (st1, some idx_acc) =>
      let r := add_attributes o_blob o_json pivot_offset st1 rest
      (r.1, (kv.1, idx_acc) :: r.2)
    | (st1, none) => add_attributes o_blob o_json pivot_offset st1 rest

/-- `add_primitive`: relocate indices and attributes (attribute failures
are silently dropped), then rebuild the material, replacing its base-color,
metallic-roughness (at half size) and normal textures; any texture failure
is wrapped with the slot's role and aborts the primitive. -/
def add_primitive (codec : Codec) (st : S) (o_blob : List Nat) (o_json : Root) (p : Primitive)
    (n_tex_size : Nat) (remove_normal_texture convert_to_ktx2 : Bool)
    (pivot_offset : Option (Int × Int × Int)) : Except String (S × Primitive) :=
  let r1 : S × Option Nat :=
    match p.indices with
    | some indices => add_accessor st o_blob o_json indices
    | none => (st, none)
  let r2 := add_attributes o_blob o_json pivot_offset r1.1 p.attributes
  let st2 := r2.1
  let n_attrs := r2.2
  match p.material with
  | none => Except.ok (st2, { p with indices := r1.2, attributes := n_attrs })
  | some idx_mat =>
    match o_json.materials.get? idx_mat with
    | none => Except.ok (st2, { p with indices := r1.2, attributes := n_attrs })
    | some mat =>
      let bcRes : Except String (S × Option TextureInfo) :=
        match mat.pbr_metallic_roughness.base_color_texture with
        | none => Except.ok (st2, none)
        | some bct_info =>
          match add_texture codec st2 o_blob o_json bct_info n_tex_size convert_to_ktx2 with
          | Except.ok r => Except.ok (r.1, some r.2)
          | Except.error e => Except.error ("Failed to process base color texture: " ++ e)
      match bcRes with
      | Except.error e => Except.error e
      | Except.ok (st3, n_bc) =>
        let mrRes : Except String (S × Option TextureInfo) :=
          match mat.pbr_metallic_roughness.metallic_roughness_texture with
          | none => Except.ok (st3, none)
          | some mr_info =>
            match add_metallic_roughness_texture codec st3 o_blob o_json mr_info (n_tex_size / 2) convert_to_ktx2 with
            | Except.ok r => Except.ok (r.1, some r.2)
            | Except.error e => Except.error ("Failed to process metallic/roughness texture: " ++ e)
        match mrRes with
        | Except.error e => Except.error e
        | Except.ok (st4, n_mr) =>
          let ntRes : Except String (S × Option NormalTexture) :=
            if remove_normal_texture then Except.ok (st4, none)
            else
              match mat.normal_texture with
              | none => Except.ok (st4, none)
              | some normal_tex =>
                match add_normal_texture codec st4 o_blob o_json normal_tex n_tex_size convert_to_ktx2 with
                | Except.ok r => Except.ok (r.1, some r.2)
                | Except.error e => Except.error ("Failed to process normal texture: " ++ e)
          match ntRes with
          | Except.error e => Except.error e
          | Except.ok (st5, n_nt) =>
            let n_mat : Material :=
              { pbr_metallic_roughness :=
                  { base_color_texture := n_bc, metallic_roughness_texture := n_mr }
                normal_texture := n_nt }
            let pm := pushMaterial st5.json n_mat
            Except.ok ({ st5 with json := pm.1 },
              { p with indices := r1.2, attributes := n_attrs, material := some pm.2 })

/-- The bounded while loop of `pad_to_4bytes`: at most 3 zero bytes are
pushed, so fuel 3 realizes the loop structurally. -/
def pad_to_4bytesAux : Nat → List Nat → List Nat
  | 0, data => data
  | f + 1, data => if data.length % 4 = 0 then data else pad_to_4bytesAux f (data ++ [0])

/-- `pad_to_4bytes`: push zero bytes until the length is a multiple of 4. -/
def pad_to_4bytes (data : List Nat) : List Nat := pad_to_4bytesAux 3 data

/-- The vertex-reading loop of `get_position_data`: positions are read in
ascending record order; any out-of-bounds window aborts with `none`. -/
def readPositionsAux (data : List Nat) (acc_offset stride : Nat) :
    Nat → Nat → Option (List (Int × Int × Int))
  | _, 0 => some []
  | i, n + 1 =>
    let start := acc_offset + i * stride
    if start + 12 > data.length then none
    else
      let x := f32FromLeBytes (data.getD start 0) (data.getD (start + 1) 0) (data.getD (start + 2) 0) (data.getD (start + 3) 0)
      let y := f32FromLeBytes (data.getD (start + 4) 0) (data.getD (start + 5) 0) (data.getD (start + 6) 0) (data.getD (start + 7) 0)
      let z := f32FromLeBytes (data.getD (start + 8) 0) (data.getD (start + 9) 0) (data.getD (start + 10) 0) (data.getD (start + 11) 0)
      match readPositionsAux data acc_offset stride (i + 1) n with
      | none => none
      | some rest => some ((x, y, z) :: rest)

/-- `get_position_data`: decode an accessor's records as f32 vec3 values. -/
def get_position_data (o_blob : List Nat) (o_json : Root) (accessor_idx : Nat) :
    Option (List (Int × Int × Int)) := do
  let acc ← o_json.accessors.get? accessor_idx
  let idx_view ← acc.buffer_view
  let view ← o_json.buffer_views.get? idx_view
  let offset := view.byte_offset.getD 0
  let acc_offset := acc.byte_offset.getD 0
  let stride := view.byte_stride.getD 12
  let count := acc.count
  let data ← if offset ≤ o_blob.length then some (o_blob.drop offset) else none
  readPositionsAux data acc_offset stride 0 count

/-- Fold a list of positions into running component-wise min/max corners. -/
def foldPosList (st : (Int × Int × Int) × (Int × Int × Int)) (ps : List (Int × Int × Int)) :
    (Int × Int × Int) × (Int × Int × Int) :=
  ps.foldl
    (fun a p =>
      ((min a.1.1 p.1, min a.1.2.1 p.2.1, min a.1.2.2 p.2.2),
       (max a.2.1 p.1, max a.2.2.1 p.2.1, max a.2.2.2 p.2.2)))
    st

/-- One attribute step of `calculate_bounding_box`'s scan. -/
def bboxStep (o_blob : List Nat) (o_json : Root)
    (st : ((Int × Int × Int) × (Int × Int × Int)) × Bool) (kv : Semantic × Nat) :
    ((Int × Int × Int) × (Int × Int × Int)) × Bool :=
  if kv.1 = Semantic.positions then
    match get_position_data o_blob o_json kv.2 with
    | some positions => (foldPosList st.1 positions, true)
    | none => st
  else st

/-- `calculate_bounding_box`: scan every primitive's position attribute,
starting from `(f32::MAX, f32::MIN)` corners; `none` when no positions. -/
def calculate_bounding_box (o_blob : List Nat) (o_json : Root) :
    Option ((Int × Int × Int) × (Int × Int × Int)) :=
  let f32MaxV : Int := (2 ^ 24 - 1) * 2 ^ 254
  let init := (((f32MaxV, f32MaxV, f32MaxV), (-f32MaxV, -f32MaxV, -f32MaxV)), false)
  let final :=
    o_json.meshes.foldl
      (fun st mesh =>
        mesh.primitives.foldl
          (fun st p => p.attributes.foldl (bboxStep o_blob o_json) st) st)
      init
  if final.2 then some final.1 else none

/-- `calculate_center_bottom_offset`: the translation moving the box's
horizontal center and lowest point to the origin.  Division by 2 is exact
on decoded f32 values (all scaled values are even). -/
def calculate_center_bottom_offset (mn mx : Int × Int × Int) : Int × Int × Int :=
  let center_x := (mn.1 + mx.1) / 2
  let center_z := (mn.2.2 + mx.2.2) / 2
  (-center_x, -mn.2.1, -center_z)

/-- The mesh-primitive loop of `optimize`. -/
def add_primitives (codec : Codec) (o_blob : List Nat) (o_json : Root) (n_tex_size : Nat)
    (remove_normal_texture convert_to_ktx2 : Bool) (pivot_offset : Option (Int × Int × Int)) :
    S → List Primitive → Except String (S × List Primitive)
  | st, [] => Except.ok (st, [])
  | st, p :: rest =>
    match add_primitive codec st o_blob o_json p n_tex_size remove_normal_texture convert_to_ktx2 pivot_offset with
    | Except.error e => Except.error e
    | Except.ok (st1, np) =>
      match add_primitives codec o_blob o_json n_tex_size remove_normal_texture convert_to_ktx2 pivot_offset st1 rest with
      | Except.error e => Except.error e
      | Except.ok (st2, nps) => Except.ok (st2, np :: nps)

/-- The mesh loop of `optimize`: rebuild each mesh's primitives and push
the mesh. -/
def add_meshes (codec : Codec) (o_blob : List Nat) (o_json : Root) (n_tex_size : Nat)
    (remove_normal_texture convert_to_ktx2 : Bool) (pivot_offset : Option (Int × Int × Int)) :
    S → List Mesh → Except String S
  | st, [] => Except.ok st
  | st, mesh :: rest =>
    match add_primitives codec o_blob o_json n_tex_size remove_normal_texture convert_to_ktx2 pivot_offset st mesh.primitives with
    | Except.error e => Except.error e
    | Except.ok (st1, nprims) =>
      let pm := pushMesh st1.json { primitives := nprims }
      add_meshes codec o_blob o_json n_tex_size remove_normal_texture convert_to_ktx2 pivot_offset
        { st1 with json := pm.1 } rest

/-- The skin loop of `optimize`: relocate each skin's inverse-bind-matrix
accessor when present and push the skin. -/
def add_skins (o_blob : List Nat) (o_json : Root) : S → List Skin → S
  | st, [] => st
  | st, skin :: rest =>
    let r : S × Option Nat :=
      match skin.inverse_bind_matrices with
      | some ibm_idx => add_accessor st o_blob o_json ibm_idx
      | none => (st, none)
    let ps := pushSkin r.1.json { inverse_bind_matrices := r.2 }
    add_skins o_blob o_json { r.1 with json := ps.1 } rest

/-- The `pivot_offset` binding of `optimize`: when recentering is enabled,
the center-bottom offset of the bounding box (none when no positions). -/
def pivotOf (o_blob : List Nat) (o_json : Root) (center_pivot : Bool) :
    Option (Int × Int × Int) :=
  if center_pivot then
    match calculate_bounding_box o_blob o_json with
    | some (mn, mx) => some (calculate_center_bottom_offset mn mx)
    | none => none
  else none

/-- The `extensions_required` binding of `optimize`: clone the source's
required list and push `KHR_texture_basisu` when transcoding is enabled and
it is not already present. -/
def requiredExtensionsOf (o_json : Root) (convert_to_ktx2 : Bool) : List String :=
  if convert_to_ktx2 && !(o_json.extensions_required.contains "KHR_texture_basisu") then
    o_json.extensions_required ++ ["KHR_texture_basisu"]
  else o_json.extensions_required

/-- The `n_json` binding of `optimize`: a fresh document whose used and
required extension lists are both the computed required list. -/
def initRoot (extensions_required : List String) : Root :=
  { buffer_views := [], accessors := [], images := [], textures := [], materials := []
    meshes := [], skins := [], buffers := []
    extensions_required := extensions_required
    extensions_used := extensions_required }

/-- `optimize` after GLB parsing (the container framing is an external
primitive): compute the pivot, the extension lists, rebuild meshes and
skins, pad the blob and push the single buffer descriptor.  Returns the new
document and blob (their GLB serialization is again external). -/
def optimize (codec : Codec) (o_blob : List Nat) (o_json : Root) (new_texture_size : Nat)
    (remove_normal_texture convert_to_ktx2 center_pivot : Bool) :
    Except String (Root × List Nat) :=
  match add_meshes codec o_blob o_json new_texture_size remove_normal_texture convert_to_ktx2
      (pivotOf o_blob o_json center_pivot)
      { blob := [], json := initRoot (requiredExtensionsOf o_json convert_to_ktx2) }
      o_json.meshes with
  | Except.error e => Except.error e
  | Except.ok st1 =>
    let st2 := add_skins o_blob o_json st1 o_json.skins
    let n_blob := pad_to_4bytes st2.blob
    let pb := pushBuffer st2.json { byte_length := n_blob.length }
    Except.ok (pb.1, n_blob)

deriving instance DecidableEq for Except

/-! ## Concrete fixtures used by witnesses and counterexamples -/

/-- A codec that always succeeds with a one-byte payload. -/
def trivialCodec : Codec :=
  { resizeToJpg := fun _ _ _ => Except.ok [7]
    resizeToPng := fun _ _ _ => Except.ok [7]
    resizeToKtx2 := fun _ _ _ _ => Except.ok [7] }

/-- A codec that always fails with a message carrying no index digits. -/
def boomCodec : Codec :=
  { resizeToJpg := fun _ _ _ => Except.error "boom"
    resizeToPng := fun _ _ _ => Except.error "boom"
    resizeToKtx2 := fun _ _ _ _ => Except.error "boom" }

/-- A document with no entities at all. -/
def emptyDoc : Root :=
  { buffer_views := [], accessors := [], images := [], textures := [], materials := []
    meshes := [], skins := [], buffers := [], extensions_used := [], extensions_required := [] }

/-! ## General helper lemmas -/

theorem getD_concat {α : Type} (l : List α) (x d : α) : (l ++ [x]).getD l.length d = x := by
  induction l with
  | nil => rfl
  | cons a t ih => simp [List.getD]

/-! ## Blob/buffer-view bookkeeping invariant (claims C5 and C6)

Every byte appended to the new blob before the final padding is covered by
exactly one freshly pushed buffer view whose declared offset is the blob
length at the moment of the append and whose declared length is the number
of appended bytes; hence the views, in push order, tile an initial segment
of the blob. -/

/-- Sum of the declared lengths of a list of buffer views. -/
def viewsTotal (vs : List BufferView) : Nat := (vs.map BufferView.byte_length).sum

/-- The views' declared ranges, in order, are consecutive starting at `s`
(an absent offset defaults to 0, as in §4.1 of the spec). -/
def viewsContiguous : Nat → List BufferView → Prop
  | _, [] => True
  | s, v :: rest => v.byte_offset.getD 0 = s ∧ viewsContiguous (s + v.byte_length) rest

/-- State invariant: views tile `[0, blob.length)` exactly. -/
def stInv (st : S) : Prop :=
  viewsContiguous 0 st.json.buffer_views ∧ viewsTotal st.json.buffer_views = st.blob.length

/-- Fields of the document never touched between `optimize`'s
initialization and its final buffer push. -/
def jsonFrame (r r' : Root) : Prop :=
  r'.extensions_used = r.extensions_used ∧ r'.extensions_required = r.extensions_required ∧
    r'.buffers = r.buffers

/-- Relation holding between the states before and after any of the
document-building operations. -/
def Step (st st' : S) : Prop := (stInv st → stInv st') ∧ jsonFrame st.json st'.json

theorem jsonFrame_refl (r : Root) : jsonFrame r r := ⟨rfl, rfl, rfl⟩

theorem jsonFrame_trans {a b c : Root} (h1 : jsonFrame a b) (h2 : jsonFrame b c) :
    jsonFrame a c := ⟨h2.1.trans h1.1, h2.2.1.trans h1.2.1, h2.2.2.trans h1.2.2⟩

theorem step_refl (st : S) : Step st st := ⟨id, jsonFrame_refl _⟩

theorem step_trans {a b c : S} (h1 : Step a b) (h2 : Step b c) : Step a c :=
  ⟨fun h => h2.1 (h1.1 h), jsonFrame_trans h1.2 h2.2⟩

theorem viewsTotal_nil : viewsTotal [] = 0 := rfl

theorem viewsTotal_concat (vs : List BufferView) (v : BufferView) :
    viewsTotal (vs ++ [v]) = viewsTotal vs + v.byte_length := by
  simp [viewsTotal]

theorem viewsContiguous_concat (vs : List BufferView) (v : BufferView) (s : Nat)
    (h : viewsContiguous s vs) (hv : v.byte_offset.getD 0 = s + viewsTotal vs) :
    viewsContiguous s (vs ++ [v]) := by
  induction vs generalizing s with
  | nil => simpa [viewsContiguous, viewsTotal] using hv
  | cons a t ih =>
    refine ⟨h.1, ih _ h.2 ?_⟩
    simpa [viewsTotal, Nat.add_assoc] using hv

/-- Appending `data` bytes together with one view covering exactly them
preserves the invariant. -/
theorem stInv_append (st : S) (data : List Nat) (v : BufferView) (r' : Root)
    (hoff : v.byte_offset.getD 0 = st.blob.length)
    (hlen : v.byte_length = data.length)
    (hviews : r'.buffer_views = st.json.buffer_views ++ [v])
    (h : stInv st) :
    stInv { blob := st.blob ++ data, json := r' } := by
  obtain ⟨hc, ht⟩ := h
  constructor
  · rw [hviews]
    exact viewsContiguous_concat _ _ _ hc (by simpa [ht] using hoff)
  · simp [hviews, viewsTotal_concat, ht, hlen]

theorem step_push_json (st : S) (r' : Root)
    (hv : r'.buffer_views = st.json.buffer_views)
    (hf : jsonFrame st.json r') : Step st { blob := st.blob, json := r' } := by
  refine ⟨fun h => ⟨?_, ?_⟩, hf⟩
  · show viewsContiguous 0 r'.buffer_views
    rw [hv]; exact h.1
  · show viewsTotal r'.buffer_views = st.blob.length
    rw [hv]; exact h.2

theorem step_add_image (st : S) (img : Image) (b : List Nat) (mime : String) :
    Step st (add_image st img b mime).1 := by
  have hoff : (if st.blob.length = 0 then none else some st.blob.length : Option Nat).getD 0
      = st.blob.length := by
    by_cases hz : st.blob.length = 0 <;> simp [hz]
  refine ⟨fun h => ?_, rfl, rfl, rfl⟩
  exact stInv_append st b
    { byte_offset := if st.blob.length = 0 then none else some st.blob.length
      byte_length := b.length, byte_stride := none }
    (add_image st img b mime).1.json hoff rfl rfl h

theorem step_add_accessor_with_offset (st : S) (o_blob : List Nat) (o_json : Root) (idx : Nat)
    (off : Option (Int × Int × Int)) :
    Step st (add_accessor_with_offset st o_blob o_json idx off).1 := by
  unfold add_accessor_with_offset
  dsimp only []
  repeat' split
  all_goals
    first
      | exact step_refl st
      | (refine ⟨fun hv => ?_, rfl, rfl, rfl⟩
         refine stInv_append st _ _ _ ?_ rfl rfl hv
         rfl)

theorem step_add_accessor (st : S) (o_blob : List Nat) (o_json : Root) (idx : Nat) :
    Step st (add_accessor st o_blob o_json idx).1 :=
  step_add_accessor_with_offset st o_blob o_json idx none

theorem step_add_texture {codec : Codec} {st : S} {o_blob : List Nat} {o_json : Root}
    {info : TextureInfo} {sz : Nat} {k : Bool} {st' : S} {ni : TextureInfo}
    (h : add_texture codec st o_blob o_json info sz k = Except.ok (st', ni)) : Step st st' := by
  unfold add_texture at h
  dsimp only [] at h
  rcases hgd : get_image_data o_blob o_json info.index with _ | dat
  · rw [hgd] at h; try dsimp only [] at h
    exact absurd h (by simp)
  rw [hgd] at h; try dsimp only [] at h
  rcases henc : (if k = true then codec.resizeToKtx2 dat sz sz TextureType.baseColor
      else codec.resizeToJpg dat sz sz) with e | newdat
  · rw [henc] at h; try dsimp only [] at h
    exact absurd h (by simp)
  rw [henc] at h; try dsimp only [] at h
  rcases htex : o_json.textures.get? info.index with _ | otex
  · rw [htex] at h; try dsimp only [] at h
    exact absurd h (by simp)
  rw [htex] at h; try dsimp only [] at h
  rcases himg : o_json.images.get? otex.source with _ | nimg
  · rw [himg] at h; try dsimp only [] at h
    exact absurd h (by simp)
  rw [himg] at h; try dsimp only [] at h
  rw [Except.ok.injEq, Prod.mk.injEq] at h
  rw [← h.1]
  exact step_trans (step_add_image st nimg newdat _)
    (step_push_json (add_image st nimg newdat _).1
      (pushTexture (add_image st nimg newdat _).1.json
        { source := (add_image st nimg newdat _).2 }).1 rfl ⟨rfl, rfl, rfl⟩)

theorem step_add_normal_texture {codec : Codec} {st : S} {o_blob : List Nat} {o_json : Root}
    {nt : NormalTexture} {sz : Nat} {k : Bool} {st' : S} {nn : NormalTexture}
    (h : add_normal_texture codec st o_blob o_json nt sz k = Except.ok (st', nn)) : Step st st' := by
  unfold add_normal_texture at h
  dsimp only [] at h
  rcases hgd : get_image_data o_blob o_json nt.index with _ | dat
  · rw [hgd] at h; try dsimp only [] at h
    exact absurd h (by simp)
  rw [hgd] at h; try dsimp only [] at h
  rcases henc : (if k = true then codec.resizeToKtx2 dat sz sz TextureType.normal
      else codec.resizeToPng dat sz sz) with e | newdat
  · rw [henc] at h; try dsimp only [] at h
    exact absurd h (by simp)
  rw [henc] at h; try dsimp only [] at h
  rcases htex : o_json.textures.get? nt.index with _ | otex
  · rw [htex] at h; try dsimp only [] at h
    exact absurd h (by simp)
  rw [htex] at h; try dsimp only [] at h
  rcases himg : o_json.images.get? otex.source with _ | nimg
  · rw [himg] at h; try dsimp only [] at h
    exact absurd h (by simp)
  rw [himg] at h; try dsimp only [] at h
  rw [Except.ok.injEq, Prod.mk.injEq] at h
  rw [← h.1]
  exact step_trans (step_add_image st nimg newdat _)
    (step_push_json (add_image st nimg newdat _).1
      (pushTexture (add_image st nimg newdat _).1.json
        { source := (add_image st nimg newdat _).2 }).1 rfl ⟨rfl, rfl, rfl⟩)

theorem step_add_metallic_roughness_texture {codec : Codec} {st : S} {o_blob : List Nat}
    {o_json : Root} {info : TextureInfo} {sz : Nat} {k : Bool} {st' : S} {ni : TextureInfo}
    (h : add_metallic_roughness_texture codec st o_blob o_json info sz k = Except.ok (st', ni)) :
    Step st st' := by
  unfold add_metallic_roughness_texture at h
  dsimp only [] at h
  rcases hgd : get_image_data o_blob o_json info.index with _ | dat
  · rw [hgd] at h; try dsimp only [] at h
    exact absurd h (by simp)
  rw [hgd] at h; try dsimp only [] at h
  rcases henc : (if k = true then codec.resizeToKtx2 dat sz sz TextureType.metallicRoughness
      else codec.resizeToJpg dat sz sz) with e | newdat
  · rw [henc] at h; try dsimp only [] at h
    exact absurd h (by simp)
  rw [henc] at h; try dsimp only [] at h
  rcases htex : o_json.textures.get? info.index with _ | otex
  · rw [htex] at h; try dsimp only [] at h
    exact absurd h (by simp)
  rw [htex] at h; try dsimp only [] at h
  rcases himg : o_json.images.get? otex.source with _ | nimg
  · rw [himg] at h; try dsimp only [] at h
    exact absurd h (by simp)
  rw [himg] at h; try dsimp only [] at h
  rw [Except.ok.injEq, Prod.mk.injEq] at h
  rw [← h.1]
  exact step_trans (step_add_image st nimg newdat _)
    (step_push_json (add_image st nimg newdat _).1
      (pushTexture (add_image st nimg newdat _).1.json
        { source := (add_image st nimg newdat _).2 }).1 rfl ⟨rfl, rfl, rfl⟩)

theorem step_add_attributes (o_blob : List Nat) (o_json : Root)
    (piv : Option (Int × Int × Int)) :
    ∀ (attrs : List (Semantic × Nat)) (st : S),
      Step st (add_attributes o_blob o_json piv st attrs).1 := by
  intro attrs
  induction attrs with
  | nil => intro st; exact step_refl st
  | cons kv rest ih =>
    intro st
    unfold add_attributes
    dsimp only []
    generalize (if kv.1 = Semantic.positions then piv else none) = off
    split
    next st1 idx heq =>
      have h1 : Step st st1 := by
        have h0 := step_add_accessor_with_offset st o_blob o_json kv.2 off
        rw [heq] at h0
        exact h0
      exact step_trans h1 (ih st1)
    next st1 heq =>
      have h1 : Step st st1 := by
        have h0 := step_add_accessor_with_offset st o_blob o_json kv.2 off
        rw [heq] at h0
        exact h0
      exact step_trans h1 (ih st1)

theorem step_add_primitive {codec : Codec} {st : S} {o_blob : List Nat} {o_json : Root}
    {p : Primitive} {sz : Nat} {rn k : Bool} {piv : Option (Int × Int × Int)} {st' : S}
    {np : Primitive}
    (h : add_primitive codec st o_blob o_json p sz rn k piv = Except.ok (st', np)) :
    Step st st' := by
  unfold add_primitive at h
  dsimp only [] at h
  rcases h1 : (match p.indices with
    | some indices => add_accessor st o_blob o_json indices
    | none => (st, (none : Option Nat))) with ⟨st1, nInd⟩
  rw [h1] at h
  try dsimp only [] at h
  have hs1 : Step st st1 := by
    rcases hpi : p.indices with _ | i
    · rw [hpi] at h1
      try dsimp only [] at h1
      rw [Prod.mk.injEq] at h1
      rw [← h1.1]
      exact step_refl st
    · rw [hpi] at h1
      try dsimp only [] at h1
      have h0 := step_add_accessor st o_blob o_json i
      rw [h1] at h0
      exact h0
  rcases h2 : add_attributes o_blob o_json piv st1 p.attributes with ⟨st2, nAttrs⟩
  rw [h2] at h
  try dsimp only [] at h
  have hs2 : Step st st2 := by
    have h0 := step_add_attributes o_blob o_json piv p.attributes st1
    rw [h2] at h0
    exact step_trans hs1 h0
  rcases hm : p.material with _ | idx_mat
  · rw [hm] at h
    try dsimp only [] at h
    rw [Except.ok.injEq, Prod.mk.injEq] at h
    rw [← h.1]
    exact hs2
  rw [hm] at h
  try dsimp only [] at h
  rcases hmm : o_json.materials.get? idx_mat with _ | mat
  · rw [hmm] at h
    try dsimp only [] at h
    rw [Except.ok.injEq, Prod.mk.injEq] at h
    rw [← h.1]
    exact hs2
  rw [hmm] at h
  try dsimp only [] at h
  rcases hbc : (match mat.pbr_metallic_roughness.base_color_texture with
    | none => Except.ok (st2, (none : Option TextureInfo))
    | some bct_info =>
      match add_texture codec st2 o_blob o_json bct_info sz k with
      | Except.ok r => Except.ok (r.1, some r.2)
      | Except.error e => Except.error ("Failed to process base color texture: " ++ e)) with
    e | ⟨st3, nbc⟩
  · rw [hbc] at h
    try dsimp only [] at h
    exact absurd h (by simp)
  rw [hbc] at h
  try dsimp only [] at h
  have hs3 : Step st st3 := by
    rcases hbct : mat.pbr_metallic_roughness.base_color_texture with _ | bct_info
    · rw [hbct] at hbc
      try dsimp only [] at hbc
      rw [Except.ok.injEq, Prod.mk.injEq] at hbc
      rw [← hbc.1]
      exact hs2
    · rw [hbct] at hbc
      try dsimp only [] at hbc
      rcases hat : add_texture codec st2 o_blob o_json bct_info sz k with e2 | ⟨rst, rni⟩
      · rw [hat] at hbc
        try dsimp only [] at hbc
        exact absurd hbc (by simp)
      · rw [hat] at hbc
        try dsimp only [] at hbc
        rw [Except.ok.injEq, Prod.mk.injEq] at hbc
        rw [← hbc.1]
        exact step_trans hs2 (step_add_texture hat)
  rcases hmr : (match mat.pbr_metallic_roughness.metallic_roughness_texture with
    | none => Except.ok (st3, (none : Option TextureInfo))
    | some mr_info =>
      match add_metallic_roughness_texture codec st3 o_blob o_json mr_info (sz / 2) k with
      | Except.ok r => Except.ok (r.1, some r.2)
      | Except.error e => Except.error ("Failed to process metallic/roughness texture: " ++ e)) with
    e | ⟨st4, nmr⟩
  · rw [hmr] at h
    try dsimp only [] at h
    exact absurd h (by simp)
  rw [hmr] at h
  try dsimp only [] at h
  have hs4 : Step st st4 := by
    rcases hmrt : mat.pbr_metallic_roughness.metallic_roughness_texture with _ | mr_info
    · rw [hmrt] at hmr
      try dsimp only [] at hmr
      rw [Except.ok.injEq, Prod.mk.injEq] at hmr
      rw [← hmr.1]
      exact hs3
    · rw [hmrt] at hmr
      try dsimp only [] at hmr
      rcases hat : add_metallic_roughness_texture codec st3 o_blob o_json mr_info (sz / 2) k with
        e2 | ⟨rst, rni⟩
      · rw [hat] at hmr
        try dsimp only [] at hmr
        exact absurd hmr (by simp)
      · rw [hat] at hmr
        try dsimp only [] at hmr
        rw [Except.ok.injEq, Prod.mk.injEq] at hmr
        rw [← hmr.1]
        exact step_trans hs3 (step_add_metallic_roughness_texture hat)
  rcases hnt : (if rn then Except.ok (st4, (none : Option NormalTexture))
    else
      match mat.normal_texture with
      | none => Except.ok (st4, (none : Option NormalTexture))
      | some normal_tex =>
        match add_normal_texture codec st4 o_blob o_json normal_tex sz k with
        | Except.ok r => Except.ok (r.1, some r.2)
        | Except.error e => Except.error ("Failed to process normal texture: " ++ e)) with
    e | ⟨st5, nnt⟩
  · rw [hnt] at h
    try dsimp only [] at h
    exact absurd h (by simp)
  rw [hnt] at h
  try dsimp only [] at h
  have hs5 : Step st st5 := by
    by_cases hrn : rn = true
    · rw [if_pos hrn] at hnt
      rw [Except.ok.injEq, Prod.mk.injEq] at hnt
      rw [← hnt.1]
      exact hs4
    · rw [if_neg hrn] at hnt
      rcases hntx : mat.normal_texture with _ | normal_tex
      · rw [hntx] at hnt
        try dsimp only [] at hnt
        rw [Except.ok.injEq, Prod.mk.injEq] at hnt
        rw [← hnt.1]
        exact hs4
      · rw [hntx] at hnt
        try dsimp only [] at hnt
        rcases hat : add_normal_texture codec st4 o_blob o_json normal_tex sz k with e2 | ⟨rst, rni⟩
        · rw [hat] at hnt
          try dsimp only [] at hnt
          exact absurd hnt (by simp)
        · rw [hat] at hnt
          try dsimp only [] at hnt
          rw [Except.ok.injEq, Prod.mk.injEq] at hnt
          rw [← hnt.1]
          exact step_trans hs4 (step_add_normal_texture hat)
  rw [Except.ok.injEq, Prod.mk.injEq] at h
  rw [← h.1]
  exact step_trans hs5 (step_push_json st5
    (pushMaterial st5.json
      { pbr_metallic_roughness := { base_color_texture := nbc, metallic_roughness_texture := nmr }
        normal_texture := nnt }).1 rfl ⟨rfl, rfl, rfl⟩)

theorem step_add_primitives {codec : Codec} {o_blob : List Nat} {o_json : Root} {sz : Nat}
    {rn k : Bool} {piv : Option (Int × Int × Int)} :
    ∀ {ps : List Primitive} {st st' : S} {nps : List Primitive},
      add_primitives codec o_blob o_json sz rn k piv st ps = Except.ok (st', nps) →
      Step st st' := by
  intro ps
  induction ps with
  | nil =>
    intro st st' nps h
    unfold add_primitives at h
    rw [Except.ok.injEq, Prod.mk.injEq] at h
    rw [← h.1]
    exact step_refl st
  | cons p rest ih =>
    intro st st' nps h
    unfold add_primitives at h
    split at h
    · exact absurd h (by simp)
    · next st1 np heq =>
      split at h
      · exact absurd h (by simp)
      · next st2 nps2 heq2 =>
        rw [Except.ok.injEq, Prod.mk.injEq] at h
        rw [← h.1]
        exact step_trans (step_add_primitive heq) (ih heq2)

theorem step_add_meshes {codec : Codec} {o_blob : List Nat} {o_json : Root} {sz : Nat}
    {rn k : Bool} {piv : Option (Int × Int × Int)} :
    ∀ {ms : List Mesh} {st st' : S},
      add_meshes codec o_blob o_json sz rn k piv st ms = Except.ok st' → Step st st' := by
  intro ms
  induction ms with
  | nil =>
    intro st st' h
    unfold add_meshes at h
    rw [Except.ok.injEq] at h
    rw [← h]
    exact step_refl st
  | cons m rest ih =>
    intro st st' h
    unfold add_meshes at h
    dsimp only [] at h
    split at h
    · exact absurd h (by simp)
    · next st1 nprims heq =>
      exact step_trans
        (step_trans (step_add_primitives heq)
          (step_push_json st1 (pushMesh st1.json { primitives := nprims }).1 rfl ⟨rfl, rfl, rfl⟩))
        (ih h)

theorem step_add_skins (o_blob : List Nat) (o_json : Root) :
    ∀ (sk : List Skin) (st : S), Step st (add_skins o_blob o_json st sk) := by
  intro sk
  induction sk with
  | nil => intro st; exact step_refl st
  | cons s rest ih =>
    intro st
    unfold add_skins
    dsimp only []
    rcases h1 : (match s.inverse_bind_matrices with
      | some ibm_idx => add_accessor st o_blob o_json ibm_idx
      | none => (st, (none : Option Nat))) with ⟨st1, nIbm⟩
    have hs1 : Step st st1 := by
      rcases hib : s.inverse_bind_matrices with _ | i
      · rw [hib] at h1
        try dsimp only [] at h1
        rw [Prod.mk.injEq] at h1
        rw [← h1.1]
        exact step_refl st
      · rw [hib] at h1
        try dsimp only [] at h1
        have h0 := step_add_accessor st o_blob o_json i
        rw [h1] at h0
        exact h0
    rw [h1]
    dsimp only []
    exact step_trans
      (step_trans hs1
        (step_push_json st1 (pushSkin st1.json { inverse_bind_matrices := nIbm }).1 rfl
          ⟨rfl, rfl, rfl⟩))
      (ih _)

theorem pad_to_4bytes_eq (d : List Nat) :
    pad_to_4bytes d = d ++ List.replicate ((4 - d.length % 4) % 4) 0 := by
  have h : d.length % 4 = 0 ∨ d.length % 4 = 1 ∨ d.length % 4 = 2 ∨ d.length % 4 = 3 := by omega
  rcases h with h | h | h | h <;>
    simp [pad_to_4bytes, pad_to_4bytesAux, h, List.length_append, Nat.add_mod,
      List.append_assoc, List.replicate_succ]

theorem pad_to_4bytes_mod (d : List Nat) : (pad_to_4bytes d).length % 4 = 0 := by
  rw [pad_to_4bytes_eq]
  simp only [List.length_append, List.length_replicate]
  omega

/-- What `optimize` guarantees on success: the buffer views tile an initial
segment of the blob, the blob is that segment zero-padded to a multiple of
4, the buffers array is exactly one descriptor declaring the padded length,
and both extension lists equal the computed required list. -/
theorem optimize_ok_spec {codec : Codec} {o_blob : List Nat} {o_json : Root} {sz : Nat}
    {rn k cp : Bool} {root : Root} {blob : List Nat}
    (h : optimize codec o_blob o_json sz rn k cp = Except.ok (root, blob)) :
    viewsContiguous 0 root.buffer_views
    ∧ (∃ kz, kz < 4 ∧ blob = blob.take (viewsTotal root.buffer_views) ++ List.replicate kz 0
        ∧ viewsTotal root.buffer_views + kz = blob.length)
    ∧ blob.length % 4 = 0
    ∧ root.buffers = [{ byte_length := blob.length }]
    ∧ root.extensions_required = requiredExtensionsOf o_json k
    ∧ root.extensions_used = root.extensions_required := by
  unfold optimize at h
  dsimp only [] at h
  split at h
  · exact absurd h (by simp)
  · next st1 heq =>
    have hstep : Step { blob := [], json := initRoot (requiredExtensionsOf o_json k) }
        (add_skins o_blob o_json st1 o_json.skins) :=
      step_trans (step_add_meshes heq) (step_add_skins o_blob o_json o_json.skins st1)
    have hinv : stInv (add_skins o_blob o_json st1 o_json.skins) := hstep.1 ⟨trivial, rfl⟩
    have hframe := hstep.2
    rw [Except.ok.injEq, Prod.mk.injEq] at h
    obtain ⟨hroot, hblob⟩ := h
    set st2 := add_skins o_blob o_json st1 o_json.skins with hst2
    have hviews : root.buffer_views = st2.json.buffer_views := by
      rw [← hroot]
      rfl
    have hblobeq : blob = pad_to_4bytes st2.blob := by
      rw [← hblob]
    have htot : viewsTotal root.buffer_views = st2.blob.length := by
      rw [hviews]; exact hinv.2
    refine ⟨?_, ⟨(4 - st2.blob.length % 4) % 4, by omega, ?_, ?_⟩, ?_, ?_, ?_, ?_⟩
    · rw [hviews]; exact hinv.1
    · rw [htot, hblobeq, pad_to_4bytes_eq]
      simp
    · rw [htot, hblobeq, pad_to_4bytes_eq]
      simp only [List.length_append, List.length_replicate]
    · rw [hblobeq]; exact pad_to_4bytes_mod st2.blob
    · rw [← hroot, ← hblob]
      show st2.json.buffers ++ [{ byte_length := (pad_to_4bytes st2.blob).length }] = _
      rw [hframe.2.2]
      rfl
    · rw [← hroot]
      show st2.json.extensions_required = _
      rw [hframe.2.1]
      rfl
    · rw [← hroot]
      show st2.json.extensions_used = st2.json.extensions_required
      rw [hframe.1, hframe.2.1]
      rfl

/-! ## Fixtures for concrete runs -/

/-- A 16-byte source blob: 4 index bytes then one vec3 position record
(1.0, 4.0, 3.0). -/
def exBlob : List Nat := [1, 0, 2, 0, 0, 0, 128, 63, 0, 0, 128, 64, 0, 0, 64, 64]

/-- A document with one mesh/primitive: a scalar index accessor over view 0
and a vec3 position accessor over view 1. -/
def exDoc : Root :=
  { buffer_views := [⟨none, 4, none⟩, ⟨some 4, 12, none⟩]
    accessors :=
      [⟨some 0, none, 2, 5123, AccType.scalar, none, none⟩,
       ⟨some 1, none, 1, 5126, AccType.vec3, some [f32OfInt 1, f32OfInt 4, f32OfInt 3],
        some [f32OfInt 1, f32OfInt 4, f32OfInt 3]⟩]
    images := [], textures := [], materials := []
    meshes := [⟨[⟨some 0, [(Semantic.positions, 1)], none⟩]⟩]
    skins := [], buffers := [], extensions_used := [], extensions_required := [] }

/-- The document produced by `optimize` on `exDoc`/`exBlob` with every
option off. -/
def exRootOut : Root :=
  { buffer_views := [⟨some 0, 4, none⟩, ⟨some 4, 12, none⟩]
    accessors :=
      [⟨some 0, none, 2, 5123, AccType.scalar, none, none⟩,
       ⟨some 1, none, 1, 5126, AccType.vec3, some [f32OfInt 1, f32OfInt 4, f32OfInt 3],
        some [f32OfInt 1, f32OfInt 4, f32OfInt 3]⟩]
    images := [], textures := [], materials := []
    meshes := [⟨[⟨some 0, [(Semantic.positions, 1)], none⟩]⟩]
    skins := [], buffers := [⟨16⟩], extensions_used := [], extensions_required := [] }

/-- A 12-byte blob holding one position record (2.0, 4.0, 3.0). -/
def posBlob : List Nat := f32ToLeBytes (f32OfInt 2) ++ f32ToLeBytes (f32OfInt 4) ++ f32ToLeBytes (f32OfInt 3)

/-- A document with a single vec3 float accessor over the 12-byte view. -/
def posDoc : Root :=
  { emptyDoc with
    buffer_views := [⟨none, 12, none⟩]
    accessors := [⟨some 0, none, 1, 5126, AccType.vec3, none, none⟩] }

/-- A 12-byte all-zero blob viewed through a SCALAR byte accessor: not a
3-component floating layout. -/
def scalarBlob : List Nat := List.replicate 12 0

/-- A document whose only accessor is SCALAR with component type 5121
(unsigned byte), i.e. not a 3-component floating-point layout. -/
def scalarDoc : Root :=
  { emptyDoc with
    buffer_views := [⟨none, 12, none⟩]
    accessors := [⟨some 0, none, 1, 5121, AccType.scalar, none, none⟩] }

/-- The output of the KTX2-enabled run on the empty document. -/
def extRootOut1 : Root :=
  { emptyDoc with
    buffers := [⟨0⟩]
    extensions_used := ["KHR_texture_basisu"]
    extensions_required := ["KHR_texture_basisu"] }

/-! ## Claim C2 -/

/-- C2: `calculate_center_bottom_offset min max` is exactly
`(-(min_x+max_x)/2, -min_y, -(min_z+max_z)/2)`; on the box
`min = (-2,0,-1)`, `max = (2,4,3)` it is `(0,0,-1)`; translating by the
returned offset always sends the y-minimum to 0 and the x- and z-centers
to 0; and relocating a one-record position accessor holding `(2,4,3)` with
the offset computed from that box rewrites the record bytes to `(2,4,2)`
(f32 values are exact integers scaled by `2^150`). -/
theorem c2_center_bottom_offset :
    (∀ mn mx : Int × Int × Int,
      calculate_center_bottom_offset mn mx
        = (-((mn.1 + mx.1) / 2), -mn.2.1, -((mn.2.2 + mx.2.2) / 2)))
    ∧ calculate_center_bottom_offset (f32OfInt (-2), f32OfInt 0, f32OfInt (-1))
        (f32OfInt 2, f32OfInt 4, f32OfInt 3) = (0, 0, f32OfInt (-1))
    ∧ (∀ mn mx : Int × Int × Int,
        mn.2.1 + (calculate_center_bottom_offset mn mx).2.1 = 0
        ∧ ((mn.1 + (calculate_center_bottom_offset mn mx).1)
            + (mx.1 + (calculate_center_bottom_offset mn mx).1)) / 2 = 0
        ∧ ((mn.2.2 + (calculate_center_bottom_offset mn mx).2.2)
            + (mx.2.2 + (calculate_center_bottom_offset mn mx).2.2)) / 2 = 0)
    ∧ (add_accessor_with_offset ⟨[], emptyDoc⟩ posBlob posDoc 0
        (some (calculate_center_bottom_offset (f32OfInt (-2), f32OfInt 0, f32OfInt (-1))
          (f32OfInt 2, f32OfInt 4, f32OfInt 3)))).1.blob
      = f32ToLeBytes (f32OfInt 2) ++ f32ToLeBytes (f32OfInt 4) ++ f32ToLeBytes (f32OfInt 2) := by
  refine ⟨fun mn mx => rfl, by decide, fun mn mx => ⟨?_, ?_, ?_⟩, by decide⟩
  · simp only [calculate_center_bottom_offset]
    omega
  · simp only [calculate_center_bottom_offset]
    omega
  · simp only [calculate_center_bottom_offset]
    omega

/-! ## Claim C7 -/

/-- C7 counterexample: the extension match is not case-insensitive — the
mixed-case name `"wall.Png"` is not recognized, so `.ktx2` is appended
(`"wall.Png.ktx2"`) instead of replacing the extension (`"wall.ktx2"` as
the claim predicts). -/
theorem c7_counterexample :
    update_image_name_for_ktx2 (some "wall.Png") = some "wall.Png.ktx2"
    ∧ update_image_name_for_ktx2 (some "wall.Png") ≠ some "wall.ktx2" := by
  constructor
  · decide
  · decide

/-- C7 amended: re-embedding an image as KTX2 rewrites its name and URI by
replacing every occurrence of one of the eight exact spellings
`.jpg/.jpeg/.png/.webp/.JPG/.JPEG/.PNG/.WEBP` (matched case-sensitively,
not case-insensitively) with `.ktx2`, appending `.ktx2` when nothing was
replaced; when the image has no name, the pushed image is named
`texture_<n>.ktx2` where `n` is the new image's index (the value
`add_image` returns); `"wall.PNG"` becomes `"wall.ktx2"`, `"wall"` becomes
`"wall.ktx2"`, but mixed-case `"wall.Png"` becomes `"wall.Png.ktx2"`. -/
theorem c7_amended :
    (∀ (st : S) (img : Image) (b : List Nat),
      (add_image st img b "image/ktx2").2 = st.json.images.length
      ∧ ((add_image st img b "image/ktx2").1.json.images.getD st.json.images.length default).name
          = (match update_image_name_for_ktx2 img.name with
             | some n => some n
             | none => some ("texture_" ++ Nat.repr st.json.images.length ++ ".ktx2"))
      ∧ ((add_image st img b "image/ktx2").1.json.images.getD st.json.images.length default).uri
          = update_image_name_for_ktx2 img.uri)
    ∧ update_image_name_for_ktx2 (some "wall.PNG") = some "wall.ktx2"
    ∧ update_image_name_for_ktx2 (some "wall") = some "wall.ktx2"
    ∧ update_image_name_for_ktx2 (some "wall.Png") = some "wall.Png.ktx2"
    ∧ update_image_name_for_ktx2 none = none := by
  refine ⟨fun st img b => ⟨rfl, ?_, ?_⟩, by decide, by decide, by decide, rfl⟩
  · rcases hu : update_image_name_for_ktx2 img.name with _ | nm <;>
      simp [add_image, pushImage, pushView, getD_concat, hu]
  · rcases hu : update_image_name_for_ktx2 img.name with _ | nm <;>
      simp [add_image, pushImage, pushView, getD_concat, hu]

/-! ## Claim C1 -/

/-- Spec-side description (the claim's words) of the in-place position
transform: for every record `i ∈ [0, count)`, in ascending order, whose
12-byte window at `element_offset + i*stride` lies inside the span, decode
3 little-endian f32s, add the offset component-wise, re-encode in place. -/
def specTransformSpan (data : List Nat) (element_offset stride count : Nat)
    (v : Int × Int × Int) : List Nat :=
  (List.range count).foldl
    (fun d i =>
      let start := element_offset + i * stride
      if start + 12 ≤ d.length then
        let x := f32FromLeBytes (d.getD start 0) (d.getD (start + 1) 0) (d.getD (start + 2) 0) (d.getD (start + 3) 0)
        let y := f32FromLeBytes (d.getD (start + 4) 0) (d.getD (start + 5) 0) (d.getD (start + 6) 0) (d.getD (start + 7) 0)
        let z := f32FromLeBytes (d.getD (start + 8) 0) (d.getD (start + 9) 0) (d.getD (start + 10) 0) (d.getD (start + 11) 0)
        listWrite d start (f32ToLeBytes (x + v.1) ++ f32ToLeBytes (y + v.2.1) ++ f32ToLeBytes (z + v.2.2))
      else d)
    data

/-- The source's descending-recursion loop agrees with the spec-side
ascending fold. -/
theorem transformRecords_eq_spec (d : List Nat) (eo s : Nat) (v : Int × Int × Int) :
    ∀ n, transformRecords d eo s v n = specTransformSpan d eo s n v := by
  intro n
  induction n with
  | zero => rfl
  | succ n ih =>
    show transformRecord (transformRecords d eo s v n) (eo + n * s) v = _
    rw [ih]
    unfold specTransformSpan
    rw [List.range_succ, List.foldl_append]
    rfl

/-- C1 counterexample: the code never checks the accessor's layout.  A
SCALAR accessor with component type 5121 (unsigned byte) over a 12-byte
all-zero span, relocated with offset `(1,0,0)`, is not copied verbatim:
the first four bytes become the little-endian encoding of 1.0f
(`[0,0,128,63]`), refuting the claim's "otherwise the span is appended
byte-for-byte verbatim". -/
theorem c1_counterexample :
    (scalarDoc.accessors.getD 0 default).type_ = AccType.scalar
    ∧ (scalarDoc.accessors.getD 0 default).component_type = 5121
    ∧ (add_accessor_with_offset ⟨[], emptyDoc⟩ scalarBlob scalarDoc 0
        (some (f32OfInt 1, 0, 0))).1.blob = [0, 0, 128, 63, 0, 0, 0, 0, 0, 0, 0, 0]
    ∧ (add_accessor_with_offset ⟨[], emptyDoc⟩ scalarBlob scalarDoc 0
        (some (f32OfInt 1, 0, 0))).1.blob ≠ scalarBlob := by
  refine ⟨rfl, rfl, by decide, by decide⟩

/-- C1 amended: whenever a translation offset is supplied — regardless of
the accessor's component type or layout — the copied span has, for each
record `i ∈ [0, count)` whose 12-byte window fits, the 3 little-endian
f32s at `element_offset + i*stride` replaced by their component-wise sum
with the offset; the new accessor's min/max arrays (when present with at
least 3 entries) have their first three components translated; and only
when no offset is supplied is the span appended verbatim. -/
theorem c1_amended (st : S) (o_blob : List Nat) (o_json : Root) (idx : Nat)
    (v : Int × Int × Int) (acc : Accessor) (idx_view : Nat) (view : BufferView)
    (data : List Nat)
    (hacc : o_json.accessors.get? idx = some acc)
    (hbv : acc.buffer_view = some idx_view)
    (hview : o_json.buffer_views.get? idx_view = some view)
    (hdata : sliceGet o_blob (view.byte_offset.getD 0)
        (view.byte_offset.getD 0 + view.byte_length) = some data) :
    (add_accessor_with_offset st o_blob o_json idx (some v)).1.blob
        = st.blob ++ specTransformSpan data (acc.byte_offset.getD 0)
            (view.byte_stride.getD 12) acc.count v
    ∧ (add_accessor_with_offset st o_blob o_json idx (some v)).2
        = some st.json.accessors.length
    ∧ ((add_accessor_with_offset st o_blob o_json idx (some v)).1.json.accessors.getD
          st.json.accessors.length default).min = translateMinMax acc.min v
    ∧ ((add_accessor_with_offset st o_blob o_json idx (some v)).1.json.accessors.getD
          st.json.accessors.length default).max = translateMinMax acc.max v
    ∧ (∀ a b c rest, translateMinMax (some (a :: b :: c :: rest)) v
        = some ((a + v.1) :: (b + v.2.1) :: (c + v.2.2) :: rest))
    ∧ (add_accessor_with_offset st o_blob o_json idx none).1.blob = st.blob ++ data := by
  have hunfold : ∀ off, add_accessor_with_offset st o_blob o_json idx off
      = (match off with
        | some pos_offset =>
          let modified_data := transformRecords data (acc.byte_offset.getD 0)
            (view.byte_stride.getD 12) pos_offset acc.count
          let pv := pushView st.json
            { view with byte_offset := some st.blob.length, byte_length := modified_data.length }
          let pa := pushAccessor pv.1
            { acc with min := translateMinMax acc.min pos_offset,
                       max := translateMinMax acc.max pos_offset,
                       buffer_view := some pv.2 }
          ({ blob := st.blob ++ modified_data, json := pa.1 }, some pa.2)
        | none =>
          let pv := pushView st.json
            { view with byte_offset := some st.blob.length, byte_length := data.length }
          let pa := pushAccessor pv.1 { acc with buffer_view := some pv.2 }
          ({ blob := st.blob ++ data, json := pa.1 }, some pa.2)) := by
    intro off
    unfold add_accessor_with_offset
    rw [hacc]
    dsimp only []
    rw [hbv]
    dsimp only []
    rw [hview]
    dsimp only []
    rw [hdata]
  refine ⟨?_, ?_, ?_, ?_, ?_, ?_⟩
  · rw [hunfold (some v)]
    dsimp only []
    rw [transformRecords_eq_spec]
  · rw [hunfold (some v)]
    try rfl
  · rw [hunfold (some v)]
    dsimp only [pushAccessor, pushView]
    rw [getD_concat]
  · rw [hunfold (some v)]
    dsimp only [pushAccessor, pushView]
    rw [getD_concat]
  · intro a b c rest
    simp [translateMinMax]
  · rw [hunfold none]
    try rfl

/-- Witness for the amended C1 at a concrete vec3 accessor: one record
`(2,4,3)` translated by `(0,0,-1)` in place, and the verbatim copy when no
offset is supplied. -/
theorem c1_amended_witness :
    (add_accessor_with_offset ⟨[], emptyDoc⟩ posBlob posDoc 0
        (some (0, 0, f32OfInt (-1)))).1.blob
      = [] ++ specTransformSpan ((posBlob.drop 0).take 12) 0 12 1 (0, 0, f32OfInt (-1))
    ∧ (add_accessor_with_offset ⟨[], emptyDoc⟩ posBlob posDoc 0 none).1.blob
      = [] ++ (posBlob.drop 0).take 12 := by
  have h := c1_amended ⟨[], emptyDoc⟩ posBlob posDoc 0 (0, 0, f32OfInt (-1))
    ⟨some 0, none, 1, 5126, AccType.vec3, none, none⟩ 0 ⟨none, 12, none⟩
    ((posBlob.drop 0).take 12) rfl rfl rfl rfl
  exact ⟨h.1, h.2.2.2.2.2⟩

/-! ## Claims C5 and C6 -/

theorem viewsTotal_append (a b : List BufferView) :
    viewsTotal (a ++ b) = viewsTotal a + viewsTotal b := by
  simp [viewsTotal]

theorem viewsTotal_cons (v : BufferView) (l : List BufferView) :
    viewsTotal (v :: l) = v.byte_length + viewsTotal l := by
  simp [viewsTotal]

theorem viewsContiguous_getD :
    ∀ (vs : List BufferView) (s : Nat), viewsContiguous s vs →
      ∀ i, i < vs.length →
        (vs.getD i default).byte_offset.getD 0 = s + viewsTotal (vs.take i) := by
  intro vs
  induction vs with
  | nil => intro s h i hi; simp at hi
  | cons v t ih =>
    intro s h i hi
    cases i with
    | zero =>
      simpa [viewsTotal] using h.1
    | succ j =>
      have hj := ih (s + v.byte_length) h.2 j (by simpa using hi)
      rw [List.getD_cons_succ, List.take_succ_cons, viewsTotal_cons]
      rw [hj]
      omega

theorem viewsTotal_take_le (l : List BufferView) (i : Nat) :
    viewsTotal (l.take i) ≤ viewsTotal l := by
  conv_rhs => rw [← List.take_append_drop i l]
  rw [viewsTotal_append]
  exact Nat.le_add_right _ _

theorem viewsTotal_take_mono (l : List BufferView) {i j : Nat} (hij : i ≤ j) :
    viewsTotal (l.take i) ≤ viewsTotal (l.take j) := by
  have h : l.take i = (l.take j).take i := by
    rw [List.take_take, Nat.min_eq_left hij]
  rw [h]
  exact viewsTotal_take_le _ _

theorem viewsTotal_take_succ (vs : List BufferView) (i : Nat) (hi : i < vs.length) :
    viewsTotal (vs.take (i + 1)) = viewsTotal (vs.take i) + (vs.getD i default).byte_length := by
  rw [List.take_succ, viewsTotal_append]
  congr 1
  rcases hg : vs[i]? with _ | v
  · exact absurd hg (by simp [List.getElem?_eq_none_iff]; omega)
  · simp [viewsTotal, List.getD, hg]

/-- C5: in every document `optimize` returns, the buffer views' declared
ranges `[offset, offset+length)` over the new blob are pairwise disjoint
and appear in append order (the range of an earlier view ends no later
than a later view's range begins); each view's declared offset equals the
sum of the declared lengths of all views pushed before it — which is the
new blob's length at the moment its bytes were appended, since every
pre-padding append of `n` bytes pushes exactly one view of declared length
`n` — and every declared range lies inside the final blob. -/
theorem c5_view_ranges {codec : Codec} {o_blob : List Nat} {o_json : Root} {sz : Nat}
    {rn k cp : Bool} {root : Root} {blob : List Nat}
    (h : optimize codec o_blob o_json sz rn k cp = Except.ok (root, blob)) :
    (∀ i j, i < j → j < root.buffer_views.length →
      (root.buffer_views.getD i default).byte_offset.getD 0
          + (root.buffer_views.getD i default).byte_length
        ≤ (root.buffer_views.getD j default).byte_offset.getD 0)
    ∧ (∀ i, i < root.buffer_views.length →
        (root.buffer_views.getD i default).byte_offset.getD 0
            = viewsTotal (root.buffer_views.take i)
        ∧ (root.buffer_views.getD i default).byte_offset.getD 0
            + (root.buffer_views.getD i default).byte_length ≤ blob.length) := by
  obtain ⟨hc, ⟨kz, hkz, hblob, htotlen⟩, hmod, hbuf, hreq, hused⟩ := optimize_ok_spec h
  constructor
  · intro i j hij hj
    have hi := viewsContiguous_getD _ 0 hc i (Nat.lt_trans hij hj)
    have hjj := viewsContiguous_getD _ 0 hc j hj
    have hsucc := viewsTotal_take_succ root.buffer_views i (Nat.lt_trans hij hj)
    have hmono := viewsTotal_take_mono root.buffer_views hij
    have hmono2 := viewsTotal_take_mono root.buffer_views (show i + 1 ≤ j by omega)
    omega
  · intro i hi
    have hg := viewsContiguous_getD _ 0 hc i hi
    have hsucc := viewsTotal_take_succ root.buffer_views i hi
    have hle := viewsTotal_take_le root.buffer_views (i + 1)
    constructor
    · omega
    · omega

/-- Witness for C5: on the concrete two-accessor run, the first view's
range `[0, 4)` ends before the second view's offset `4`. -/
theorem c5_witness :
    (exRootOut.buffer_views.getD 0 default).byte_offset.getD 0
        + (exRootOut.buffer_views.getD 0 default).byte_length
      ≤ (exRootOut.buffer_views.getD 1 default).byte_offset.getD 0 :=
  (c5_view_ranges
    (show optimize trivialCodec exBlob exDoc 1024 false false false
        = Except.ok (exRootOut, exBlob) by decide)).1 0 1 (by decide) (by decide)

/-- C6: for every input and configuration, the blob `optimize` returns is
its unpadded content plus the minimal zero padding to a multiple of 4, and
the single buffer descriptor declares exactly the padded length. -/
theorem c6_blob_alignment {codec : Codec} {o_blob : List Nat} {o_json : Root} {sz : Nat}
    {rn k cp : Bool} {root : Root} {blob : List Nat}
    (h : optimize codec o_blob o_json sz rn k cp = Except.ok (root, blob)) :
    blob.length % 4 = 0
    ∧ (∃ pre kz, blob = pre ++ List.replicate kz 0 ∧ kz < 4 ∧ kz = (4 - pre.length % 4) % 4)
    ∧ root.buffers = [{ byte_length := blob.length }] := by
  obtain ⟨hc, ⟨kz, hkz, hblob, htotlen⟩, hmod, hbuf, hreq, hused⟩ := optimize_ok_spec h
  refine ⟨hmod, ⟨blob.take (viewsTotal root.buffer_views), kz, hblob, hkz, ?_⟩, hbuf⟩
  have hlen : (blob.take (viewsTotal root.buffer_views)).length
      = viewsTotal root.buffer_views := by
    rw [List.length_take]
    omega
  rw [hlen]
  omega

/-- Witness for C6 on the concrete run: blob length 16 is a multiple of 4
and the buffer descriptor declares it. -/
theorem c6_witness :
    exBlob.length % 4 = 0 ∧ exRootOut.buffers = [{ byte_length := exBlob.length }] := by
  have h := c6_blob_alignment
    (show optimize trivialCodec exBlob exDoc 1024 false false false
        = Except.ok (exRootOut, exBlob) by decide)
  exact ⟨h.1, h.2.2⟩

/-! ## Claims C8 and C10 -/

theorem basisu_mem_requiredExtensionsOf (o : Root) :
    "KHR_texture_basisu" ∈ requiredExtensionsOf o true := by
  unfold requiredExtensionsOf
  by_cases hc : "KHR_texture_basisu" ∈ o.extensions_required <;>
    simp [hc]

theorem count_requiredExtensionsOf (o : Root) :
    (requiredExtensionsOf o true).count "KHR_texture_basisu"
      = max 1 (o.extensions_required.count "KHR_texture_basisu") := by
  unfold requiredExtensionsOf
  by_cases hmem : "KHR_texture_basisu" ∈ o.extensions_required
  · have hpos : 0 < o.extensions_required.count "KHR_texture_basisu" :=
      List.count_pos_iff.mpr hmem
    simp [hmem]
    try omega
  · have hzero : o.extensions_required.count "KHR_texture_basisu" = 0 :=
      List.count_eq_zero.mpr hmem
    simp [hmem, List.count_append, hzero]

theorem requiredExtensionsOf_stable (o : Root)
    (hmem : "KHR_texture_basisu" ∈ o.extensions_required) (k : Bool) :
    requiredExtensionsOf o k = o.extensions_required := by
  unfold requiredExtensionsOf
  simp [hmem]

/-- C8: with transcoding enabled, `KHR_texture_basisu` is present in both
the used and required extension lists of the output, the used list is the
required list, its multiplicity is `max 1` of the source's (so none is
added when already present), and a second `optimize` run on the output
document leaves both lists unchanged — no duplicate is ever produced. -/
theorem c8_extension_idempotent {codec : Codec} {o_blob : List Nat} {o_json : Root} {sz : Nat}
    {rn cp : Bool} {root : Root} {blob : List Nat}
    (h : optimize codec o_blob o_json sz rn true cp = Except.ok (root, blob)) :
    "KHR_texture_basisu" ∈ root.extensions_used
    ∧ "KHR_texture_basisu" ∈ root.extensions_required
    ∧ root.extensions_used = root.extensions_required
    ∧ root.extensions_required.count "KHR_texture_basisu"
        = max 1 (o_json.extensions_required.count "KHR_texture_basisu")
    ∧ (∀ (codec2 : Codec) (o_blob2 : List Nat) (sz2 : Nat) (rn2 cp2 : Bool)
        (root2 : Root) (blob2 : List Nat),
        optimize codec2 o_blob2 root sz2 rn2 true cp2 = Except.ok (root2, blob2) →
        root2.extensions_used = root.extensions_used
        ∧ root2.extensions_required = root.extensions_required) := by
  obtain ⟨_, _, _, _, hreq, hused⟩ := optimize_ok_spec h
  have hmemreq : "KHR_texture_basisu" ∈ root.extensions_required := by
    rw [hreq]; exact basisu_mem_requiredExtensionsOf o_json
  refine ⟨by rw [hused]; exact hmemreq, hmemreq, hused, ?_, ?_⟩
  · rw [hreq]; exact count_requiredExtensionsOf o_json
  · intro codec2 o_blob2 sz2 rn2 cp2 root2 blob2 h2
    obtain ⟨_, _, _, _, hreq2, hused2⟩ := optimize_ok_spec h2
    have hstable : root2.extensions_required = root.extensions_required := by
      rw [hreq2]; exact requiredExtensionsOf_stable root hmemreq true
    exact ⟨by rw [hused2, hstable, hused], hstable⟩

/-- Witness for C8: the concrete transcoding run on the empty document,
then a second run on its output, leaving the single-entry lists intact. -/
theorem c8_witness :
    "KHR_texture_basisu" ∈ extRootOut1.extensions_used
    ∧ extRootOut1.extensions_used = extRootOut1.extensions_required := by
  have h := c8_extension_idempotent
    (show optimize trivialCodec [] emptyDoc 8 false true false
        = Except.ok (extRootOut1, []) by decide)
  have h2 := h.2.2.2.2 trivialCodec [] 8 false false extRootOut1 []
    (by decide)
  exact ⟨h.1, h2.1.trans h.2.2.1⟩

/-- A document that records `KHR_texture_basisu` as used but not required. -/
def usedDoc : Root := { emptyDoc with extensions_used := ["KHR_texture_basisu"] }

/-- C10 counterexample: `KHR_texture_basisu` is used-but-not-required in
the source, yet with transcoding enabled it appears in the output's
used-extensions list (the transcoding step put it into the required list,
which is copied into the used list), refuting the claim's universally
quantified "absent from the output's used-extensions list". -/
theorem c10_counterexample :
    "KHR_texture_basisu" ∈ usedDoc.extensions_used
    ∧ "KHR_texture_basisu" ∉ usedDoc.extensions_required
    ∧ optimize trivialCodec [] usedDoc 8 false true false = Except.ok (extRootOut1, [])
    ∧ "KHR_texture_basisu" ∈ extRootOut1.extensions_used := by decide

/-- C10 amended: `optimize` sets the output's used-extensions list equal
to its required-extensions list (so every required extension is also
used), and a source extension that is used but not required is absent from
the output's used list — except for `KHR_texture_basisu` itself when
transcoding is enabled, which the transcoding step inserts. -/
theorem c10_used_equals_required {codec : Codec} {o_blob : List Nat} {o_json : Root} {sz : Nat}
    {rn k cp : Bool} {root : Root} {blob : List Nat}
    (h : optimize codec o_blob o_json sz rn k cp = Except.ok (root, blob)) :
    root.extensions_used = root.extensions_required
    ∧ (∀ name, name ∈ root.extensions_required → name ∈ root.extensions_used)
    ∧ (∀ name, name ∈ o_json.extensions_used → name ∉ o_json.extensions_required →
        (k = false ∨ name ≠ "KHR_texture_basisu") → name ∉ root.extensions_used) := by
  obtain ⟨_, _, _, _, hreq, hused⟩ := optimize_ok_spec h
  refine ⟨hused, fun name hn => by rwa [hused], ?_⟩
  intro name hn hnotr hk
  rw [hused, hreq]
  unfold requiredExtensionsOf
  split
  · next hcond =>
    intro hmem
    rcases List.mem_append.mp hmem with hl | hr
    · exact hnotr hl
    · have hname : name = "KHR_texture_basisu" := by simpa using hr
      rcases hk with hk | hk
      · rw [hk] at hcond; simp at hcond
      · exact hk hname
  · exact hnotr

/-- Witness for the amended C10 at the concrete used-but-not-required
document. -/
theorem c10_witness :
    extRootOut1.extensions_used = extRootOut1.extensions_required :=
  (c10_used_equals_required
    (show optimize trivialCodec [] usedDoc 8 false true false
        = Except.ok (extRootOut1, []) by decide)).1

/-! ## Claims C3 and C4: error characterization and propagation -/

/-- The relocation returns `none` exactly when the accessor, its
buffer-view reference, the view, or the declared byte range is
unavailable; and in that case the state is untouched. -/
theorem reloc_fail_characterization (st : S) (o_blob : List Nat) (o_json : Root) (idx : Nat)
    (off : Option (Int × Int × Int)) :
    ((add_accessor_with_offset st o_blob o_json idx off).2 = none ↔
      ∀ acc ∈ o_json.accessors.get? idx, ∀ iv ∈ acc.buffer_view,
        ∀ view ∈ o_json.buffer_views.get? iv,
          o_blob.length < view.byte_offset.getD 0 + view.byte_length)
    ∧ ((add_accessor_with_offset st o_blob o_json idx off).2 = none →
        (add_accessor_with_offset st o_blob o_json idx off).1 = st) := by
  unfold add_accessor_with_offset
  rcases hacc : o_json.accessors.get? idx with _ | acc
  · simp
  dsimp only []
  rcases hbv : acc.buffer_view with _ | iv
  · simp [hbv]
  dsimp only []
  rcases hview : o_json.buffer_views.get? iv with _ | view
  · simp [hbv, hview]
    intro view hv
    rw [← List.get?_eq_getElem?] at hv
    rw [hview] at hv
    cases hv
  dsimp only []
  by_cases hr : view.byte_offset.getD 0 + view.byte_length ≤ o_blob.length
  · have hs : sliceGet o_blob (view.byte_offset.getD 0)
        (view.byte_offset.getD 0 + view.byte_length)
        = some ((o_blob.drop (view.byte_offset.getD 0)).take
            (view.byte_offset.getD 0 + view.byte_length - view.byte_offset.getD 0)) := by
      simp [sliceGet, hr, Nat.le_add_right]
    rw [hs]
    dsimp only []
    rcases off with _ | v <;>
      exact ⟨⟨fun hcontra => by simp at hcontra, fun hB =>
        absurd (hB acc (by simp) iv (by simp [hbv])
          view (by simp [← List.get?_eq_getElem?, hview])) (by omega)⟩,
        fun hcontra => by simp at hcontra⟩
  · have hs : sliceGet o_blob (view.byte_offset.getD 0)
        (view.byte_offset.getD 0 + view.byte_length) = none := by
      simp [sliceGet]
      omega
    rw [hs]
    dsimp only []
    refine ⟨⟨fun _ => ?_, fun _ => rfl⟩, fun _ => rfl⟩
    intro acc' hacc' iv' hiv' view' hview'
    simp at hacc'
    subst hacc'
    rw [hbv] at hiv'
    simp at hiv'
    subst hiv'
    rw [hview] at hview'
    simp at hview'
    subst hview'
    omega

/-- Whether a relocation succeeds depends only on the source document and
blob, not on the state being built nor on the supplied offset. -/
theorem reloc_isSome_indep (o_blob : List Nat) (o_json : Root) (idx : Nat)
    (off off' : Option (Int × Int × Int)) (st st' : S) :
    (add_accessor_with_offset st o_blob o_json idx off).2.isSome
      = (add_accessor_with_offset st' o_blob o_json idx off').2.isSome := by
  have h1 := (reloc_fail_characterization st o_blob o_json idx off).1
  have h2 := (reloc_fail_characterization st' o_blob o_json idx off').1
  by_cases hp : ∀ acc ∈ o_json.accessors.get? idx, ∀ iv ∈ acc.buffer_view,
      ∀ view ∈ o_json.buffer_views.get? iv,
        o_blob.length < view.byte_offset.getD 0 + view.byte_length
  · rw [h1.mpr hp, h2.mpr hp]
  · rcases ho : (add_accessor_with_offset st o_blob o_json idx off).2 with _ | a
    · exact absurd (h1.mp ho) hp
    rcases ho' : (add_accessor_with_offset st' o_blob o_json idx off').2 with _ | b
    · exact absurd (h2.mp ho') hp
    rfl

/-- The attribute loop keeps exactly the attributes whose relocation
succeeds (in order); failing attributes are silently omitted. -/
theorem add_attributes_keys (o_blob : List Nat) (o_json : Root)
    (piv : Option (Int × Int × Int)) :
    ∀ (attrs : List (Semantic × Nat)) (st : S),
      (add_attributes o_blob o_json piv st attrs).2.map Prod.fst
        = (attrs.filter
            (fun kv => (add_accessor_with_offset st o_blob o_json kv.2 none).2.isSome)).map
              Prod.fst := by
  intro attrs
  induction attrs with
  | nil => intro st; rfl
  | cons kv rest ih =>
    intro st
    unfold add_attributes
    dsimp only []
    rcases hr : add_accessor_with_offset st o_blob o_json kv.2
        (if kv.1 = Semantic.positions then piv else none) with ⟨st1, oi⟩
    have hpred : (add_accessor_with_offset st o_blob o_json kv.2 none).2.isSome = oi.isSome := by
      rw [reloc_isSome_indep o_blob o_json kv.2 none
        (if kv.1 = Semantic.positions then piv else none) st st, hr]
    have hfilter : rest.filter
          (fun kv2 => (add_accessor_with_offset st1 o_blob o_json kv2.2 none).2.isSome)
        = rest.filter
          (fun kv2 => (add_accessor_with_offset st o_blob o_json kv2.2 none).2.isSome) := by
      apply List.filter_congr
      intro kv2 _
      exact reloc_isSome_indep o_blob o_json kv2.2 none none st1 st
    rcases oi with _ | idxAcc
    · have hfalse : (add_accessor_with_offset st o_blob o_json kv.2 none).2.isSome = false :=
        hpred
      simp [List.filter_cons, hfalse, ih st1, hfilter]
    · have htrue : (add_accessor_with_offset st o_blob o_json kv.2 none).2.isSome = true :=
        hpred
      simp [List.filter_cons, htrue, ih st1, hfilter]

/-- Missing image data is a texture-level error naming the role and the
texture index (base-color path). -/
theorem add_texture_missing_image {codec : Codec} {st : S} {o_blob : List Nat} {o_json : Root}
    {info : TextureInfo} {sz : Nat} {k : Bool}
    (h : get_image_data o_blob o_json info.index = none) :
    add_texture codec st o_blob o_json info sz k
      = Except.error ("Failed to get base color texture image data (texture index: "
          ++ Nat.repr info.index ++ ")") := by
  unfold add_texture
  rw [h]

/-- A codec failure in the base-color path surfaces the raw codec message. -/
theorem add_texture_codec_error {codec : Codec} {st : S} {o_blob : List Nat} {o_json : Root}
    {info : TextureInfo} {sz : Nat} {k : Bool} {d : List Nat} {m : String}
    (h1 : get_image_data o_blob o_json info.index = some d)
    (h2 : (if k = true then codec.resizeToKtx2 d sz sz TextureType.baseColor
        else codec.resizeToJpg d sz sz) = Except.error m) :
    add_texture codec st o_blob o_json info sz k = Except.error m := by
  unfold add_texture
  rw [h1]
  dsimp only []
  rw [h2]

/-- A primitive whose material's base-color texture has no image data
fails with the role-and-index error, wrapped with the slot's role. -/
theorem add_primitive_bc_missing {codec : Codec} {st : S} {o_blob : List Nat} {o_json : Root}
    {p : Primitive} {sz : Nat} {rn k : Bool} {piv : Option (Int × Int × Int)}
    {mi : Nat} {mat : Material} {info : TextureInfo}
    (hm : p.material = some mi)
    (hget : o_json.materials.get? mi = some mat)
    (hbc : mat.pbr_metallic_roughness.base_color_texture = some info)
    (himg : get_image_data o_blob o_json info.index = none) :
    add_primitive codec st o_blob o_json p sz rn k piv
      = Except.error ("Failed to process base color texture: "
          ++ ("Failed to get base color texture image data (texture index: "
            ++ Nat.repr info.index ++ ")")) := by
  unfold add_primitive
  dsimp only []
  rcases h1 : (match p.indices with
    | some indices => add_accessor st o_blob o_json indices
    | none => (st, (none : Option Nat))) with ⟨st1, nInd⟩
  try rw [h1]
  try dsimp only []
  rcases h2 : add_attributes o_blob o_json piv st1 p.attributes with ⟨st2, nA⟩
  try rw [h2]
  try dsimp only []
  rw [hm]
  dsimp only []
  rw [hget]
  dsimp only []
  rw [hbc]
  dsimp only []
  rw [@add_texture_missing_image codec st2 o_blob o_json _ sz k himg]

/-- A primitive whose material's base-color codec invocation fails
propagates the codec message wrapped only with the slot's role. -/
theorem add_primitive_bc_codec_error {codec : Codec} {st : S} {o_blob : List Nat} {o_json : Root}
    {p : Primitive} {sz : Nat} {rn k : Bool} {piv : Option (Int × Int × Int)}
    {mi : Nat} {mat : Material} {info : TextureInfo} {d : List Nat} {m : String}
    (hm : p.material = some mi)
    (hget : o_json.materials.get? mi = some mat)
    (hbc : mat.pbr_metallic_roughness.base_color_texture = some info)
    (himg : get_image_data o_blob o_json info.index = some d)
    (hcodec : (if k = true then codec.resizeToKtx2 d sz sz TextureType.baseColor
        else codec.resizeToJpg d sz sz) = Except.error m) :
    add_primitive codec st o_blob o_json p sz rn k piv
      = Except.error ("Failed to process base color texture: " ++ m) := by
  unfold add_primitive
  dsimp only []
  rcases h1 : (match p.indices with
    | some indices => add_accessor st o_blob o_json indices
    | none => (st, (none : Option Nat))) with ⟨st1, nInd⟩
  try rw [h1]
  try dsimp only []
  rcases h2 : add_attributes o_blob o_json piv st1 p.attributes with ⟨st2, nA⟩
  try rw [h2]
  try dsimp only []
  rw [hm]
  dsimp only []
  rw [hget]
  dsimp only []
  rw [hbc]
  dsimp only []
  rw [@add_texture_codec_error codec st2 o_blob o_json _ sz k _ _ himg hcodec]

/-- A primitive with no material never fails: its indices and attributes
are relocated, a failing attribute relocation only drops that attribute,
and a failing index relocation only clears the indices. -/
theorem add_primitive_no_material {codec : Codec} {st : S} {o_blob : List Nat} {o_json : Root}
    {p : Primitive} {sz : Nat} {rn k : Bool} {piv : Option (Int × Int × Int)}
    (h : p.material = none) :
    ∃ st' np, add_primitive codec st o_blob o_json p sz rn k piv = Except.ok (st', np)
      ∧ np.attributes.map Prod.fst
          = (p.attributes.filter
              (fun kv => (add_accessor_with_offset st o_blob o_json kv.2 none).2.isSome)).map
                Prod.fst
      ∧ (∀ i, p.indices = some i →
          (add_accessor_with_offset st o_blob o_json i none).2 = none → np.indices = none)
      ∧ np.material = none := by
  unfold add_primitive
  dsimp only []
  rcases h1 : (match p.indices with
    | some indices => add_accessor st o_blob o_json indices
    | none => (st, (none : Option Nat))) with ⟨st1, nInd⟩
  try rw [h1]
  try dsimp only []
  rw [h]
  dsimp only []
  rcases h2 : add_attributes o_blob o_json piv st1 p.attributes with ⟨st2, nA⟩
  try rw [h2]
  try dsimp only []
  refine ⟨st2, { indices := nInd, attributes := nA, material := none }, rfl, ?_, ?_, rfl⟩
  · have hk := add_attributes_keys o_blob o_json piv p.attributes st1
    rw [h2] at hk
    have hc : p.attributes.filter
          (fun kv => (add_accessor_with_offset st1 o_blob o_json kv.2 none).2.isSome)
        = p.attributes.filter
          (fun kv => (add_accessor_with_offset st o_blob o_json kv.2 none).2.isSome) :=
      List.filter_congr
        (fun kv2 _ => reloc_isSome_indep o_blob o_json kv2.2 none none st1 st)
    dsimp only [] at hk ⊢
    rw [hk, hc]
  · intro i hi hnone
    rw [hi] at h1
    dsimp only [] at h1
    have hval : (add_accessor st o_blob o_json i).2 = nInd := by rw [h1]
    unfold add_accessor at hval
    rw [hnone] at hval
    exact hval.symm

/-- Every `add_primitive` error message is wrapped with one of the three
texture-slot roles: attribute and index relocation never abort. -/
theorem add_primitive_error_prefix {codec : Codec} {st : S} {o_blob : List Nat} {o_json : Root}
    {p : Primitive} {sz : Nat} {rn k : Bool} {piv : Option (Int × Int × Int)} {e : String}
    (h : add_primitive codec st o_blob o_json p sz rn k piv = Except.error e) :
    (∃ m, e = "Failed to process base color texture: " ++ m)
    ∨ (∃ m, e = "Failed to process metallic/roughness texture: " ++ m)
    ∨ (∃ m, e = "Failed to process normal texture: " ++ m) := by
  unfold add_primitive at h
  dsimp only [] at h
  rcases h1 : (match p.indices with
    | some indices => add_accessor st o_blob o_json indices
    | none => (st, (none : Option Nat))) with ⟨st1, nInd⟩
  rw [h1] at h
  try dsimp only [] at h
  rcases h2 : add_attributes o_blob o_json piv st1 p.attributes with ⟨st2, nA⟩
  rw [h2] at h
  try dsimp only [] at h
  rcases hm : p.material with _ | mi
  · rw [hm] at h
    try dsimp only [] at h
    exact absurd h (by simp)
  rw [hm] at h
  try dsimp only [] at h
  rcases hget : o_json.materials.get? mi with _ | mat
  · rw [hget] at h
    try dsimp only [] at h
    exact absurd h (by simp)
  rw [hget] at h
  try dsimp only [] at h
  rcases hbc : (match mat.pbr_metallic_roughness.base_color_texture with
    | none => Except.ok (st2, (none : Option TextureInfo))
    | some bct_info =>
      match add_texture codec st2 o_blob o_json bct_info sz k with
      | Except.ok r => Except.ok (r.1, some r.2)
      | Except.error e => Except.error ("Failed to process base color texture: " ++ e)) with
    ebc | ⟨st3, nbc⟩
  · rw [hbc] at h
    try dsimp only [] at h
    rw [Except.error.injEq] at h
    left
    rcases hbct : mat.pbr_metallic_roughness.base_color_texture with _ | info
    · rw [hbct] at hbc
      try dsimp only [] at hbc
      exact absurd hbc (by simp)
    · rw [hbct] at hbc
      try dsimp only [] at hbc
      rcases hat : add_texture codec st2 o_blob o_json info sz k with e2 | r
      · rw [hat] at hbc
        try dsimp only [] at hbc
        rw [Except.error.injEq] at hbc
        exact ⟨e2, by rw [← h, ← hbc]⟩
      · rw [hat] at hbc
        try dsimp only [] at hbc
        exact absurd hbc (by simp)
  rw [hbc] at h
  try dsimp only [] at h
  rcases hmr : (match mat.pbr_metallic_roughness.metallic_roughness_texture with
    | none => Except.ok (st3, (none : Option TextureInfo))
    | some mr_info =>
      match add_metallic_roughness_texture codec st3 o_blob o_json mr_info (sz / 2) k with
      | Except.ok r => Except.ok (r.1, some r.2)
      | Except.error e =>
        Except.error ("Failed to process metallic/roughness texture: " ++ e)) with
    emr | ⟨st4, nmr⟩
  · rw [hmr] at h
    try dsimp only [] at h
    rw [Except.error.injEq] at h
    right; left
    rcases hmrt : mat.pbr_metallic_roughness.metallic_roughness_texture with _ | info
    · rw [hmrt] at hmr
      try dsimp only [] at hmr
      exact absurd hmr (by simp)
    · rw [hmrt] at hmr
      try dsimp only [] at hmr
      rcases hat : add_metallic_roughness_texture codec st3 o_blob o_json info (sz / 2) k with
        e2 | r
      · rw [hat] at hmr
        try dsimp only [] at hmr
        rw [Except.error.injEq] at hmr
        exact ⟨e2, by rw [← h, ← hmr]⟩
      · rw [hat] at hmr
        try dsimp only [] at hmr
        exact absurd hmr (by simp)
  rw [hmr] at h
  try dsimp only [] at h
  rcases hnt : (if rn then Except.ok (st4, (none : Option NormalTexture))
    else
      match mat.normal_texture with
      | none => Except.ok (st4, (none : Option NormalTexture))
      | some normal_tex =>
        match add_normal_texture codec st4 o_blob o_json normal_tex sz k with
        | Except.ok r => Except.ok (r.1, some r.2)
        | Except.error e => Except.error ("Failed to process normal texture: " ++ e)) with
    ent | ⟨st5, nnt⟩
  · rw [hnt] at h
    try dsimp only [] at h
    rw [Except.error.injEq] at h
    right; right
    by_cases hrn : rn = true
    · rw [if_pos hrn] at hnt
      exact absurd hnt (by simp)
    · rw [if_neg hrn] at hnt
      rcases hntx : mat.normal_texture with _ | normal_tex
      · rw [hntx] at hnt
        try dsimp only [] at hnt
        exact absurd hnt (by simp)
      · rw [hntx] at hnt
        try dsimp only [] at hnt
        rcases hat : add_normal_texture codec st4 o_blob o_json normal_tex sz k with e2 | r
        · rw [hat] at hnt
          try dsimp only [] at hnt
          rw [Except.error.injEq] at hnt
          exact ⟨e2, by rw [← h, ← hnt]⟩
        · rw [hat] at hnt
          try dsimp only [] at hnt
          exact absurd hnt (by simp)
  rw [hnt] at h
  try dsimp only [] at h
  exact absurd h (by simp)

/-- Every primitive of a successfully processed primitive list was itself
processed successfully from some state. -/
theorem add_primitives_ok_all {codec : Codec} {o_blob : List Nat} {o_json : Root} {sz : Nat}
    {rn k : Bool} {piv : Option (Int × Int × Int)} :
    ∀ {ps : List Primitive} {st st' : S} {nps : List Primitive},
      add_primitives codec o_blob o_json sz rn k piv st ps = Except.ok (st', nps) →
      ∀ p ∈ ps, ∃ st0 st1 np,
        add_primitive codec st0 o_blob o_json p sz rn k piv = Except.ok (st1, np) := by
  intro ps
  induction ps with
  | nil =>
    intro st st' nps _ p hp
    simp at hp
  | cons q rest ih =>
    intro st st' nps h p hp
    unfold add_primitives at h
    split at h
    · exact absurd h (by simp)
    · next st1 np heq =>
      split at h
      · exact absurd h (by simp)
      · next st2 nps2 heq2 =>
        rcases List.mem_cons.mp hp with hpq | hpr
        · exact ⟨st, st1, np, by rw [hpq]; exact heq⟩
        · exact ih heq2 p hpr

/-- Every primitive of every mesh of a successful mesh pass was processed
successfully from some state. -/
theorem add_meshes_ok_all {codec : Codec} {o_blob : List Nat} {o_json : Root} {sz : Nat}
    {rn k : Bool} {piv : Option (Int × Int × Int)} :
    ∀ {ms : List Mesh} {st st' : S},
      add_meshes codec o_blob o_json sz rn k piv st ms = Except.ok st' →
      ∀ m ∈ ms, ∀ p ∈ m.primitives, ∃ st0 st1 np,
        add_primitive codec st0 o_blob o_json p sz rn k piv = Except.ok (st1, np) := by
  intro ms
  induction ms with
  | nil =>
    intro st st' _ m hm
    simp at hm
  | cons q rest ih =>
    intro st st' h m hm p hp
    unfold add_meshes at h
    dsimp only [] at h
    split at h
    · exact absurd h (by simp)
    · next st1 nprims heq =>
      rcases List.mem_cons.mp hm with hmq | hmr
      · exact add_primitives_ok_all heq p (by rw [← hmq]; exact hp)
      · exact ih h m hmr p hp

/-- If the document contains a primitive whose processing fails from every
state, `optimize` cannot succeed. -/
theorem optimize_fails_of_failing_primitive {codec : Codec} {o_blob : List Nat} {o_json : Root}
    {sz : Nat} {rn k cp : Bool} {m : Mesh} {p : Primitive}
    (hm : m ∈ o_json.meshes) (hp : p ∈ m.primitives)
    (hfail : ∀ st0 : S, ∃ e, add_primitive codec st0 o_blob o_json p sz rn k
        (pivotOf o_blob o_json cp) = Except.error e) :
    (optimize codec o_blob o_json sz rn k cp).isOk = false := by
  unfold optimize
  dsimp only []
  rcases hms : add_meshes codec o_blob o_json sz rn k (pivotOf o_blob o_json cp)
      { blob := [], json := initRoot (requiredExtensionsOf o_json k) } o_json.meshes with e | st1
  · rfl
  · exfalso
    obtain ⟨st0, st01, np, hok⟩ := add_meshes_ok_all hms m hm p hp
    obtain ⟨e, herr⟩ := hfail st0
    rw [hok] at herr
    exact absurd herr (by simp)

/-- A document whose single material's base-color texture points at an
image with no buffer view (no embedded data). -/
def noImgDoc : Root :=
  { emptyDoc with
    images := [⟨none, none, none, none⟩]
    textures := [⟨0⟩]
    materials := [⟨⟨some ⟨0⟩, none⟩, none⟩]
    meshes := [⟨[⟨none, [], some 0⟩]⟩] }

/-- A document with one embedded 3-byte image used as a base-color
texture. -/
def imgDoc : Root :=
  { emptyDoc with
    buffer_views := [⟨none, 3, none⟩]
    images := [⟨some 0, none, some "wall.PNG", none⟩]
    textures := [⟨0⟩]
    materials := [⟨⟨some ⟨0⟩, none⟩, none⟩]
    meshes := [⟨[⟨none, [], some 0⟩]⟩] }

/-- C3 counterexample: on a document whose base-color texture's source
image has no buffer view, `optimize` does not drop the slot and complete —
it aborts with an error naming the role and the texture index, producing
no output at all. -/
theorem c3_counterexample :
    (noImgDoc.images.getD 0 default).buffer_view = none
    ∧ optimize trivialCodec [] noImgDoc 1024 false false false
        = Except.error
          "Failed to process base color texture: Failed to get base color texture image data (texture index: 0)" := by
  decide

/-- C3 amended: for every document containing a material whose base-color
texture references an image whose embedded data is unavailable, `optimize`
aborts the whole conversion (the error carries the slot's role and the
texture's index, per `add_primitive_bc_missing`), instead of dropping the
slot and continuing. -/
theorem c3_missing_image_aborts {codec : Codec} {o_blob : List Nat} {o_json : Root} {sz : Nat}
    {rn k cp : Bool} {m : Mesh} {p : Primitive} {mi : Nat} {mat : Material} {info : TextureInfo}
    (hm : m ∈ o_json.meshes) (hp : p ∈ m.primitives)
    (hmat : p.material = some mi) (hget : o_json.materials.get? mi = some mat)
    (hbc : mat.pbr_metallic_roughness.base_color_texture = some info)
    (himg : get_image_data o_blob o_json info.index = none) :
    (optimize codec o_blob o_json sz rn k cp).isOk = false :=
  optimize_fails_of_failing_primitive hm hp
    (fun _ => ⟨_, add_primitive_bc_missing hmat hget hbc himg⟩)

/-- Witness for the amended C3 at the concrete no-image document. -/
theorem c3_witness : (optimize trivialCodec [] noImgDoc 1024 false false false).isOk = false :=
  @c3_missing_image_aborts trivialCodec [] noImgDoc 1024 false false false
    ⟨[⟨none, [], some 0⟩]⟩ ⟨none, [], some 0⟩ _ _ _
    (by decide) (by decide) rfl rfl rfl rfl

/-- C4 counterexample: a codec failure is propagated as
"Failed to process base color texture: boom" — it carries the role but not
the source texture's index: the message does not contain the decimal
representation of the index 0 at all, refuting "carrying the texture's
role and source index" for codec errors. -/
theorem c4_counterexample :
    optimize boomCodec [9, 9, 9] imgDoc 1024 false false false
      = Except.error "Failed to process base color texture: boom"
    ∧ strContainsStr "Failed to process base color texture: boom" (Nat.repr 0) = false := by
  decide

/-- C4 amended, the two-tier error policy: (1) an attribute/index
relocation returns `none` exactly when the accessor, its view or its byte
range is unavailable, leaving the state untouched; (2) the attribute loop
keeps exactly the attributes whose relocation succeeds; (3) a primitive
with no material always succeeds, a failing attribute only drops that
attribute and a failing index relocation only clears the indices; (4)
every `add_primitive` error is a texture-level error wrapped with its
slot's role — relocation failures never abort; (5) missing image data
aborts with an error carrying the role and the texture index; (6) a codec
failure aborts with an error carrying the role and the codec message (but
not necessarily the index); (7) a primitive that always fails makes the
whole `optimize` call fail, returning no output. -/
theorem c4_two_tier_error_policy :
    (∀ (st : S) (o_blob : List Nat) (o_json : Root) (idx : Nat)
        (off : Option (Int × Int × Int)),
      ((add_accessor_with_offset st o_blob o_json idx off).2 = none ↔
        ∀ acc ∈ o_json.accessors.get? idx, ∀ iv ∈ acc.buffer_view,
          ∀ view ∈ o_json.buffer_views.get? iv,
            o_blob.length < view.byte_offset.getD 0 + view.byte_length)
      ∧ ((add_accessor_with_offset st o_blob o_json idx off).2 = none →
          (add_accessor_with_offset st o_blob o_json idx off).1 = st))
    ∧ (∀ (o_blob : List Nat) (o_json : Root) (piv : Option (Int × Int × Int))
        (attrs : List (Semantic × Nat)) (st : S),
        (add_attributes o_blob o_json piv st attrs).2.map Prod.fst
          = (attrs.filter
              (fun kv => (add_accessor_with_offset st o_blob o_json kv.2 none).2.isSome)).map
                Prod.fst)
    ∧ (∀ (codec : Codec) (st : S) (o_blob : List Nat) (o_json : Root) (p : Primitive)
        (sz : Nat) (rn k : Bool) (piv : Option (Int × Int × Int)),
        p.material = none →
        ∃ st' np, add_primitive codec st o_blob o_json p sz rn k piv = Except.ok (st', np)
          ∧ np.attributes.map Prod.fst
              = (p.attributes.filter
                  (fun kv => (add_accessor_with_offset st o_blob o_json kv.2 none).2.isSome)).map
                    Prod.fst
          ∧ (∀ i, p.indices = some i →
              (add_accessor_with_offset st o_blob o_json i none).2 = none → np.indices = none)
          ∧ np.material = none)
    ∧ (∀ (codec : Codec) (st : S) (o_blob : List Nat) (o_json : Root) (p : Primitive)
        (sz : Nat) (rn k : Bool) (piv : Option (Int × Int × Int)) (e : String),
        add_primitive codec st o_blob o_json p sz rn k piv = Except.error e →
        (∃ m2, e = "Failed to process base color texture: " ++ m2)
        ∨ (∃ m2, e = "Failed to process metallic/roughness texture: " ++ m2)
        ∨ (∃ m2, e = "Failed to process normal texture: " ++ m2))
    ∧ (∀ (codec : Codec) (st : S) (o_blob : List Nat) (o_json : Root) (p : Primitive)
        (sz : Nat) (rn k : Bool) (piv : Option (Int × Int × Int)) (mi : Nat) (mat : Material)
        (info : TextureInfo),
        p.material = some mi → o_json.materials.get? mi = some mat →
        mat.pbr_metallic_roughness.base_color_texture = some info →
        get_image_data o_blob o_json info.index = none →
        add_primitive codec st o_blob o_json p sz rn k piv
          = Except.error ("Failed to process base color texture: "
              ++ ("Failed to get base color texture image data (texture index: "
                ++ Nat.repr info.index ++ ")")))
    ∧ (∀ (codec : Codec) (st : S) (o_blob : List Nat) (o_json : Root) (p : Primitive)
        (sz : Nat) (rn k : Bool) (piv : Option (Int × Int × Int)) (mi : Nat) (mat : Material)
        (info : TextureInfo) (d : List Nat) (msg : String),
        p.material = some mi → o_json.materials.get? mi = some mat →
        mat.pbr_metallic_roughness.base_color_texture = some info →
        get_image_data o_blob o_json info.index = some d →
        (if k = true then codec.resizeToKtx2 d sz sz TextureType.baseColor
          else codec.resizeToJpg d sz sz) = Except.error msg →
        add_primitive codec st o_blob o_json p sz rn k piv
          = Except.error ("Failed to process base color texture: " ++ msg))
    ∧ (∀ (codec : Codec) (o_blob : List Nat) (o_json : Root) (sz : Nat) (rn k cp : Bool)
        (m : Mesh) (p : Primitive),
        m ∈ o_json.meshes → p ∈ m.primitives →
        (∀ st0 : S, ∃ e, add_primitive codec st0 o_blob o_json p sz rn k
            (pivotOf o_blob o_json cp) = Except.error e) →
        (optimize codec o_blob o_json sz rn k cp).isOk = false) :=
  ⟨fun st o_blob o_json idx off => reloc_fail_characterization st o_blob o_json idx off,
   fun o_blob o_json piv attrs st => add_attributes_keys o_blob o_json piv attrs st,
   fun _ _ _ _ _ _ _ _ _ h => add_primitive_no_material h,
   fun _ _ _ _ _ _ _ _ _ _ h => add_primitive_error_prefix h,
   fun _ _ _ _ _ _ _ _ _ _ _ _ h1 h2 h3 h4 => add_primitive_bc_missing h1 h2 h3 h4,
   fun _ _ _ _ _ _ _ _ _ _ _ _ _ _ h1 h2 h3 h4 h5 =>
     add_primitive_bc_codec_error h1 h2 h3 h4 h5,
   fun _ _ _ _ _ _ _ _ _ hm hp hfail => optimize_fails_of_failing_primitive hm hp hfail⟩

/-- Witness for the amended C4: the codec-failure run on the concrete
document aborts `optimize`, exercising conjuncts (6) and (7) at concrete
inputs. -/
theorem c4_witness :
    (optimize boomCodec [9, 9, 9] imgDoc 1024 false false false).isOk = false := by
  have h := c4_two_tier_error_policy
  exact h.2.2.2.2.2.2 boomCodec [9, 9, 9] imgDoc 1024 false false false
    ⟨[⟨none, [], some 0⟩]⟩ ⟨none, [], some 0⟩ (by decide) (by decide)
    (fun st0 => ⟨"Failed to process base color texture: boom",
      h.2.2.2.2.2.1 boomCodec st0 [9, 9, 9] imgDoc ⟨none, [], some 0⟩ 1024 false false
        (pivotOf [9, 9, 9] imgDoc false) 0 ⟨⟨some ⟨0⟩, none⟩, none⟩ ⟨0⟩ [9, 9, 9] "boom"
        rfl rfl rfl (by decide) rfl⟩)

/-! ## Claim C9 -/

/-- Successful metallic/roughness conversion appends exactly the codec's
output for the requested size to the new blob. -/
theorem add_metallic_roughness_texture_ok {codec : Codec} {st : S} {o_blob : List Nat}
    {o_json : Root} {info : TextureInfo} {sz : Nat} {k : Bool} {d enc : List Nat}
    {otex : Texture} {img : Image}
    (himg : get_image_data o_blob o_json info.index = some d)
    (hcodec : (if k = true then codec.resizeToKtx2 d sz sz TextureType.metallicRoughness
        else codec.resizeToJpg d sz sz) = Except.ok enc)
    (htex : o_json.textures.get? info.index = some otex)
    (himg2 : o_json.images.get? otex.source = some img) :
    ∃ st' ni, add_metallic_roughness_texture codec st o_blob o_json info sz k
        = Except.ok (st', ni)
      ∧ st'.blob = st.blob ++ enc := by
  unfold add_metallic_roughness_texture
  rw [himg]
  dsimp only []
  rw [hcodec]
  dsimp only []
  rw [htex]
  dsimp only []
  rw [himg2]
  dsimp only []
  exact ⟨_, _, rfl, rfl⟩

/-- C9: for a primitive whose material carries (only) a metallic/roughness
texture, `add_primitive` with target edge `n_tex_size` requests the
conversion at edge `n_tex_size / 2`: with an arbitrary codec, the bytes
appended to the blob are exactly the codec's output for size
`n_tex_size / 2` (so a base-color target edge of 1024 requests the
metallic/roughness conversion at 512). -/
theorem c9_metallic_roughness_half_size {codec : Codec} {st : S} {o_blob : List Nat}
    {o_json : Root} {p : Primitive} {n_tex_size : Nat} {rn k : Bool}
    {piv : Option (Int × Int × Int)} {mi : Nat} {mat : Material} {info : TextureInfo}
    {d enc : List Nat} {otex : Texture} {img : Image}
    (hind : p.indices = none) (hattrs : p.attributes = [])
    (hm : p.material = some mi) (hget : o_json.materials.get? mi = some mat)
    (hbcnone : mat.pbr_metallic_roughness.base_color_texture = none)
    (hmr : mat.pbr_metallic_roughness.metallic_roughness_texture = some info)
    (hnt : mat.normal_texture = none)
    (himg : get_image_data o_blob o_json info.index = some d)
    (hcodec : (if k = true then
        codec.resizeToKtx2 d (n_tex_size / 2) (n_tex_size / 2) TextureType.metallicRoughness
      else codec.resizeToJpg d (n_tex_size / 2) (n_tex_size / 2)) = Except.ok enc)
    (htex : o_json.textures.get? info.index = some otex)
    (himg2 : o_json.images.get? otex.source = some img) :
    ∃ st' np, add_primitive codec st o_blob o_json p n_tex_size rn k piv = Except.ok (st', np)
      ∧ st'.blob = st.blob ++ enc := by
  unfold add_primitive
  dsimp only []
  rw [hind]
  dsimp only []
  rw [hattrs]
  dsimp only [add_attributes]
  rw [hm]
  dsimp only []
  rw [hget]
  dsimp only []
  rw [hbcnone]
  dsimp only []
  rw [hmr]
  dsimp only []
  obtain ⟨st4, ni, hok, hblob⟩ :=
    @add_metallic_roughness_texture_ok codec st o_blob o_json _ (n_tex_size / 2) k _ _ _ _
      himg hcodec htex himg2
  rw [hok]
  dsimp only []
  by_cases hrn : rn = true
  · rw [if_pos hrn]
    dsimp only []
    exact ⟨_, _, rfl, hblob⟩
  · rw [if_neg hrn]
    rw [hnt]
    dsimp only []
    exact ⟨_, _, rfl, hblob⟩

/-- A codec that records the requested width in its output payload. -/
def sizeCodec : Codec :=
  { resizeToJpg := fun _ w _ => Except.ok [w]
    resizeToPng := fun _ w _ => Except.ok [w]
    resizeToKtx2 := fun _ w _ _ => Except.ok [w] }

/-- A document whose single material carries only a metallic/roughness
texture over an embedded 3-byte image. -/
def mrDoc : Root :=
  { emptyDoc with
    buffer_views := [⟨none, 3, none⟩]
    images := [⟨some 0, none, none, none⟩]
    textures := [⟨0⟩]
    materials := [⟨⟨none, some ⟨0⟩⟩, none⟩]
    meshes := [⟨[⟨none, [], some 0⟩]⟩] }

/-- Witness for C9 at target edge 1024: the size-recording codec shows the
metallic/roughness request happened (it is what appended `[512]`, the
codec output at width `1024 / 2`). -/
theorem c9_witness :
    (add_primitive sizeCodec ⟨[], emptyDoc⟩ [7, 7, 7] mrDoc ⟨none, [], some 0⟩
      1024 false false none).isOk = true := by
  obtain ⟨st', np, hok, hblob⟩ :=
    @c9_metallic_roughness_half_size sizeCodec ⟨[], emptyDoc⟩ [7, 7, 7] mrDoc
      ⟨none, [], some 0⟩ 1024 false false none _ _ _ [7, 7, 7] [512] _ _
      rfl rfl rfl rfl rfl rfl rfl (by decide) rfl rfl rfl
  rw [hok]
  rfl

end GltfOpt
